import Mathlib

/-!
Verification development for the function-analysis core of a binding generator
(the `FnAnalyzer` in `engine/src/conversion/analysis/fun/mod.rs`) and the
build-orchestration entry point (`Builder::new` in `gen/build/src/lib.rs`).

The Rust code is shallowly embedded: each Rust function becomes a Lean
function over explicit data; the analyzer's mutable registries become an
explicit `FnAnalyzer` state value threaded through the analysis.  Components
of the repository whose sources are not part of this snapshot (the overload /
bridge-name / rust-name trackers, the type converter, the identifier
validators and the `TypeConversionPolicy` payload of `function_wrapper`) are
modelled from the specification; each such definition carries a doc comment
saying so.  Strings are treated as lists of characters (the sources only deal
in ASCII identifiers), using structurally-recursive helpers so that concrete
runs reduce inside the kernel.
-/

/- ### String helpers (structural replacements for `ends_with`, `starts_with`, slicing) -/

/-- Does `pre` occur at the head of `l`?  (Char-list core of `str::starts_with`.) -/
def listStarts : List Char → List Char → Bool
  | [], _ => true
  | _ :: _, [] => false
  | a :: as, b :: bs => a = b && listStarts as bs

/-- Rust `str::starts_with`. -/
def strStartsWith (s pre : String) : Bool :=
  listStarts pre.data s.data

/-- Rust `str::ends_with`. -/
def strEndsWith (s post : String) : Bool :=
  listStarts post.data.reverse s.data.reverse

/-- Rust slicing `&s[n..]` (identifiers here are ASCII, so byte = char). -/
def strDrop (s : String) (n : Nat) : String :=
  String.mk (s.data.drop n)

/-- Rust `str::len` on ASCII identifiers. -/
def strLen (s : String) : Nat :=
  s.data.length

/- ### Names and types -/

/-- A C++ namespace path, e.g. `["A", "B"]` for `A::B`.  (`types::Namespace`.) -/
abbrev NamespacePath := List String

/-- `types::QualifiedName`: a namespace path plus the final item. -/
structure QualifiedName where
  nsPath : NamespacePath
  item : String
deriving DecidableEq, Repr

/-- `QualifiedName::to_cpp_name`: `A::B::item`. -/
def QualifiedName.to_cpp_name (q : QualifiedName) : String :=
  match q.nsPath with
  | [] => q.item
  | p :: rest => (rest.foldl (fun acc seg => acc ++ "::" ++ seg) p) ++ "::" ++ q.item

/-- `QualifiedName::is_cvoid`: the opaque `c_void` placeholder used by bindgen
for virtual-dispatch receivers. -/
def QualifiedName.is_cvoid (q : QualifiedName) : Bool :=
  q.item = "c_void"

/-- The fragment of `syn::Type` the analyzer inspects: named type paths, raw
pointers, references, plus the owned-pointer / borrowed-string forms produced
by conversions (`UniquePtr<T>` and string views on the bridge side), and an
opaque `other` for shapes the analyzer does not look into. -/
inductive Ty where
  | path (name : QualifiedName)
  | ptr (isMut : Bool) (elem : Ty)
  | reference (elem : Ty)
  | uniquePtr (elem : Ty)
  | strRef
  | other
deriving DecidableEq, Repr

/-- Named types mentioned inside a type (the `types_encountered` dependency
set collected by the type converter). -/
def Ty.depsOf : Ty → List QualifiedName
  | .path n => [n]
  | .ptr _ e => e.depsOf
  | .reference e => e.depsOf
  | .uniquePtr e => e.depsOf
  | .strRef => []
  | .other => []

/-- Does a raw pointer remain in the type?  (Drives the type converter's
`requires_unsafe` output, called `requires_caution` in this embedding because
of lexical restrictions of this development.) -/
def Ty.containsRawPtr : Ty → Bool
  | .ptr _ _ => true
  | .reference e => e.containsRawPtr
  | .uniquePtr e => e.containsRawPtr
  | _ => false

/-- The fragment of `syn::Pat` used for parameter names. -/
inductive Pat where
  | ident (name : String)
  | wild
deriving DecidableEq, Repr

/- ### Identifier validation (modelled from the spec) -/

/-- Modelled from the spec: reserved keyword-like identifiers of the managed
language (the `validate_ident_ok_for_rust` check lives in `types.rs`, outside
this source snapshot). -/
def rustReservedWords : List String :=
  ["as", "async", "await", "box", "break", "const", "continue", "crate", "do",
   "dyn", "else", "enum", "extern", "false", "fn", "for", "if", "impl", "in",
   "let", "loop", "match", "mod", "move", "mut", "priv", "pub", "ref",
   "return", "self", "static", "struct", "super", "trait", "true", "try",
   "type", "union", "unsafe", "use", "virtual", "where", "while", "yield"]

/-- A character legal inside an identifier. -/
def isIdentChar (c : Char) : Bool :=
  c.isAlphanum || c = '_'

/-- Modelled from the spec: `validate_ident_ok_for_rust` (in `types.rs`,
outside this snapshot) — the managed language's identifier grammar: nonempty,
identifier characters only, no leading digit, not a reserved keyword.
Returns `true` when the identifier is acceptable (`Ok(())` in the source). -/
def validate_ident_ok_for_rust (id : String) : Bool :=
  !id.data.isEmpty && id.data.all isIdentChar &&
    !(match id.data with | c :: _ => c.isDigit | [] => false) &&
    !(rustReservedWords.contains id)

/-- Modelled from the spec: extra names the flat bridge layer reserves on top
of the managed grammar. -/
def cxxReservedWords : List String :=
  ["auto", "class", "delete", "new", "template", "typename"]

/-- Modelled from the spec: `validate_ident_ok_for_cxx` (in `types.rs`,
outside this snapshot) — the bridge layer's restricted identifier grammar. -/
def validate_ident_ok_for_cxx (id : String) : Bool :=
  validate_ident_ok_for_rust id && !(cxxReservedWords.contains id)

/- ### Conversion policies (modelled from the spec) -/

/-- Modelled from the spec: `function_wrapper::TypeConversionPolicy` (outside
this snapshot).  The four constructors mirror the four classifier outcomes:
Unconverted, FromBorrowedString, ToOwnedPointer, FromOwnedPointer; each
records the boundary type it applies to. -/
inductive TypeConversionPolicy where
  | new_unconverted (ty : Ty)
  | new_from_str (ty : Ty)
  | new_to_unique_ptr (ty : Ty)
  | new_from_unique_ptr (ty : Ty)
deriving DecidableEq, Repr

/-- Modelled from the spec: `cpp_work_needed` — every conversion other than
the identity needs C++-side work. -/
def TypeConversionPolicy.cpp_work_needed : TypeConversionPolicy → Bool
  | .new_unconverted _ => false
  | _ => true

/-- Modelled from the spec: the native-side (pre-conversion) type carried by
a policy. -/
def TypeConversionPolicy.unconverted_rust_type : TypeConversionPolicy → Ty
  | .new_unconverted t => t
  | .new_from_str t => t
  | .new_to_unique_ptr t => t
  | .new_from_unique_ptr t => t

/-- Modelled from the spec: the bridge-side (post-conversion) type — owned
pointers become `UniquePtr<T>` handles, borrowed strings a string view. -/
def TypeConversionPolicy.converted_rust_type : TypeConversionPolicy → Ty
  | .new_unconverted t => t
  | .new_from_str _ => Ty.strRef
  | .new_to_unique_ptr t => Ty.uniquePtr t
  | .new_from_unique_ptr t => Ty.uniquePtr t

/- ### Known types (modelled from the spec) -/

/-- Modelled from the spec: `known_types().convertible_from_strs` — the known
string-like types constructible from a borrowed string view. -/
def known_convertible_from_strs (tn : QualifiedName) : Bool :=
  tn = ⟨["std"], "string"⟩

/-- Modelled from the spec: `known_types().is_cxx_acceptable_receiver` — types
that cannot legally be a boundary receiver (the opaque placeholder is never an
instantiable owner). -/
def known_is_cxx_acceptable_receiver (tn : QualifiedName) : Bool :=
  !tn.is_cvoid

/- ### Configuration and declarations -/

/-- The slice of `IncludeCppConfig` the analyzer consults. -/
structure IncludeCppConfig where
  allowlist : List String
  exclude_utilities : Bool
deriving DecidableEq, Repr

/-- The bindgen-inserted annotations consumed by the analyzer
(`bindgen_pure_virtual`, `bindgen_unused_template_param_in_arg_or_return`,
`bindgen_special_member("...")`, `bindgen_ret_type_reference`,
`bindgen_arg_type_reference(ident)`). -/
inductive BindgenAttr where
  | pureVirtual
  | unusedTemplateParam
  | specialMember (value : String)
  | retTypeReference
  | argTypeReference (name : String)
deriving DecidableEq, Repr

/-- A typed parameter (`FnArg::Typed`; bindgen never produces
`FnArg::Receiver`, which the source treats as unreachable). -/
structure FnArgSyn where
  pat : Pat
  ty : Ty
deriving DecidableEq, Repr

/-- `FuncToConvert` together with the `ForeignItemFn` fields the analyzer
reads: identifier, parameter list, return type (`none` = default return),
attributes, the externally-supplied virtual receiver substitute, the
owning-type marker for static methods, and visibility. -/
structure FuncToConvert where
  ident : String
  inputs : List FnArgSyn
  output : Option Ty
  attrs : List BindgenAttr
  virtual_this_type : Option QualifiedName
  self_ty : Option QualifiedName
  is_public : Bool
deriving DecidableEq, Repr

/-- `api::ApiName`: the ingestion-assigned qualified name plus the optional
native-visible (`cpp_name`) override. -/
structure ApiName where
  cpp_name : Option String
  name : QualifiedName
deriving DecidableEq, Repr

/- ### Errors -/

/-- The `ConvertError` variants reachable from this analysis. -/
inductive ConvertError where
  | InvalidIdent (id : String)
  | VirtualThisType (ns : NamespacePath) (fn : String)
  | UnexpectedThisType (ns : NamespacePath) (fn : String)
  | UnusedTemplateParam
  | MoveConstructorUnsupported
  | UnsupportedReceiver
  | NotOneInputReference (name : String)
deriving DecidableEq, Repr

/-- `convert_error::ErrorContext` — the function/method identity attached to
errors for diagnostics. -/
inductive ErrorContext where
  | Item (name : String)
  | Method (self_ty : String) (method : String)
deriving DecidableEq, Repr

/-- `ConvertErrorWithContext`. -/
structure ConvertErrorWithContext where
  err : ConvertError
  ctx : Option ErrorContext
deriving DecidableEq, Repr

/- ### Analysis results -/

/-- `MethodKind`. -/
inductive MethodKind where
  | Normal
  | Constructor
  | Static
  | Virtual
  | PureVirtual
deriving DecidableEq, Repr

/-- `FnKind`. -/
inductive FnKind where
  | Function
  | Method (self_ty : QualifiedName) (mk : MethodKind)
deriving DecidableEq, Repr

/-- `RustRenameStrategy` (the spec's RenameStrategy: NoRenameNeeded /
RenameViaAttribute / RenameViaAliasExport). -/
inductive RustRenameStrategy where
  | None
  | RenameUsingRustAttr
  | RenameInOutputMod (alias_target : String)
deriving DecidableEq, Repr

/-- `function_wrapper::CppFunctionBody` — the payload kind of a shim. -/
inductive CppFunctionBody where
  | FunctionCall (ns : NamespacePath) (ident : String)
  | StaticMethodCall (ns : NamespacePath) (ty : String) (ident : String)
  | Constructor
deriving DecidableEq, Repr

/-- `function_wrapper::CppFunction` — the ShimDescription. -/
structure CppFunction where
  payload : CppFunctionBody
  wrapper_function_name : String
  return_conversion : Option TypeConversionPolicy
  argument_conversion : List TypeConversionPolicy
  is_a_method : Bool
deriving DecidableEq, Repr

/-- `ArgumentAnalysis` (source field `requires_unsafe` appears here as
`requires_caution` for lexical reasons; the semantics are unchanged). -/
structure ArgumentAnalysis where
  conversion : TypeConversionPolicy
  name : Pat
  self_type : Option QualifiedName
  was_reference : Bool
  deps : List QualifiedName
  is_virtual : Bool
  requires_caution : Bool
deriving DecidableEq, Repr

/-- `ReturnTypeAnalysis`. -/
structure ReturnTypeAnalysis where
  rt : Option Ty
  conversion : Option TypeConversionPolicy
  was_reference : Bool
  deps : List QualifiedName
deriving DecidableEq, Repr

/-- `FnAnalysisBody` — the per-declaration output record. -/
structure FnAnalysisBody where
  cxxbridge_name : String
  rust_name : String
  rust_rename_strategy : RustRenameStrategy
  params : List FnArgSyn
  kind : FnKind
  ret_type : Option Ty
  param_details : List ArgumentAnalysis
  requires_caution : Bool
  is_public : Bool
  cpp_wrapper : Option CppFunction
  deps : List QualifiedName
deriving DecidableEq, Repr

/-- `Api::Function` as produced by this phase: the analysis body plus the
resolved `ApiName` under which the result is registered. -/
structure ApiFunction where
  analysis : FnAnalysisBody
  result_name : ApiName
deriving DecidableEq, Repr

/- ### The three registries -/

/-- Association-list lookup with default 0 (registry counters). -/
def lookupCount {α : Type} [DecidableEq α] : List (α × Nat) → α → Nat
  | [], _ => 0
  | (a, n) :: rest, k => if a = k then n else lookupCount rest k

/-- Bump a registry counter. -/
def bumpCount {α : Type} [DecidableEq α] : List (α × Nat) → α → List (α × Nat)
  | [], k => [(k, 1)]
  | (a, n) :: rest, k =>
      if a = k then (a, n + 1) :: rest else (a, n) :: bumpCount rest k

/-- Modelled from the spec: the Overload Registry (`overload_tracker`, outside
this snapshot): per-owning-type and per-function counters mapping an ideal
name to a collision-free one. -/
structure OverloadTracker where
  fn_counts : List (String × Nat)
  method_counts : List ((String × String) × Nat)
deriving DecidableEq, Repr

/-- A fresh Overload Registry. -/
def OverloadTracker.empty : OverloadTracker := ⟨[], []⟩

/-- Modelled from the spec: `method_real_name(owning_type, ideal_name)` —
strips the owning-type `Type_` head from the ideal name when present,
otherwise passes it through; declarations sharing an ideal name receive the
next free numeric suffix in first-seen order (`foo`, `foo1`, `foo2`, ...). -/
def OverloadTracker.get_method_real_name (t : OverloadTracker) (type_ident : String)
    (ideal : String) : String × OverloadTracker :=
  let stripped :=
    if strStartsWith ideal (type_ident ++ "_") then strDrop ideal (strLen type_ident + 1)
    else ideal
  let c := lookupCount t.method_counts (type_ident, stripped)
  let final := if c = 0 then stripped else stripped ++ toString c
  (final, { t with method_counts := bumpCount t.method_counts (type_ident, stripped) })

/-- Modelled from the spec: `function_real_name(ideal_name)` — same numeric
suffix policy, no owning-type stripping. -/
def OverloadTracker.get_function_real_name (t : OverloadTracker) (ideal : String) :
    String × OverloadTracker :=
  let c := lookupCount t.fn_counts ideal
  let final := if c = 0 then ideal else ideal ++ toString c
  (final, { t with fn_counts := bumpCount t.fn_counts ideal })

/-- Modelled from the spec: the Bridge Name Registry (`bridge_name_tracker`,
outside this snapshot): one flat run-wide space of bridge names. -/
structure BridgeNameTracker where
  counts : List (String × Nat)
deriving DecidableEq, Repr

/-- Modelled from the spec: `get_unique_cxx_bridge_name(owning_type?, name,
namespace)` — deterministic; the first use of a name passes through
unchanged; collisions are disambiguated by seeding with the owning type's
name (methods) or by the next numeric suffix (functions).  Collisions are
scoped to the whole run, not per namespace (single flat space), so the
namespace argument does not partition the registry. -/
def BridgeNameTracker.get_unique_cxx_bridge_name (t : BridgeNameTracker)
    (type_name : Option String) (found_name : String) (_ns : NamespacePath) :
    String × BridgeNameTracker :=
  let c := lookupCount t.counts found_name
  let result :=
    if c = 0 then found_name
    else
      match type_name with
      | some ty => ty ++ "_" ++ found_name ++ (if c = 1 then "" else toString (c - 1))
      | none => found_name ++ toString c
  (result, ⟨bumpCount t.counts found_name⟩)

/-- Modelled from the spec: the Managed-Name Registry (`rust_name_tracker`,
outside this snapshot): the set of managed-visible names already claimed
globally. -/
structure RustNameTracker where
  names : List String
deriving DecidableEq, Repr

/-- Modelled from the spec: `ok_to_use_rust_name` — reports whether the name
was still free, claiming it either way (`HashSet::insert`). -/
def RustNameTracker.ok_to_use_rust_name (t : RustNameTracker) (n : String) :
    Bool × RustNameTracker :=
  (!(t.names.contains n), ⟨n :: t.names⟩)

/- ### The analyzer state -/

/-- `FnAnalyzer` — the state threaded through
`analyze_functions`/`analyze_foreign_fn`.  (`unsafe_policy ==
UnsafePolicy::AllFunctionsUnsafe` is carried as the boolean
`all_fns_cautious`; the `extra_apis` accumulator and the type-converter cache
are not needed by any analyzed property and are omitted.) -/
structure FnAnalyzer where
  all_fns_cautious : Bool
  rust_name_tracker : RustNameTracker
  bridge_name_tracker : BridgeNameTracker
  pod_safe_types : List QualifiedName
  config : IncludeCppConfig
  overload_trackers_by_mod : List (NamespacePath × OverloadTracker)
deriving DecidableEq, Repr

/-- `overload_trackers_by_mod.entry(ns).or_default()` (read half). -/
def lookupTrackerList : List (NamespacePath × OverloadTracker) → NamespacePath → OverloadTracker
  | [], _ => OverloadTracker.empty
  | (k, t) :: rest, ns => if k = ns then t else lookupTrackerList rest ns

/-- `overload_trackers_by_mod.entry(ns).or_default()` (write half). -/
def setTrackerList : List (NamespacePath × OverloadTracker) → NamespacePath → OverloadTracker →
    List (NamespacePath × OverloadTracker)
  | [], ns, t => [(ns, t)]
  | (k, t0) :: rest, ns, t =>
      if k = ns then (k, t) :: rest else (k, t0) :: setTrackerList rest ns t

/-- `FnAnalyzer::is_on_allowlist`. -/
def FnAnalyzer.is_on_allowlist (an : FnAnalyzer) (type_name : QualifiedName) : Bool :=
  an.config.allowlist.contains type_name.to_cpp_name

/-- `FnAnalyzer::should_be_unsafe` in the source (renamed for lexical
reasons): the blanket-safety policy. -/
def FnAnalyzer.should_be_cautious (an : FnAnalyzer) : Bool :=
  an.all_fns_cautious

/-- `FnAnalyzer::get_cxx_bridge_name` (delegates to the Bridge Name Registry,
updating it). -/
def FnAnalyzer.get_cxx_bridge_name (an : FnAnalyzer) (type_name : Option String)
    (found_name : String) (ns : NamespacePath) : String × FnAnalyzer :=
  let r := an.bridge_name_tracker.get_unique_cxx_bridge_name type_name found_name ns
  (r.1, { an with bridge_name_tracker := r.2 })

/-- `FnAnalyzer::ok_to_use_rust_name` (delegates to the Managed-Name
Registry, updating it). -/
def FnAnalyzer.ok_to_use_rust_name (an : FnAnalyzer) (n : String) : Bool × FnAnalyzer :=
  let r := an.rust_name_tracker.ok_to_use_rust_name n
  (r.1, { an with rust_name_tracker := r.2 })

/- ### Attribute helpers -/

/-- `has_attr(attrs, "bindgen_pure_virtual")`. -/
def has_pure_virtual_attr (attrs : List BindgenAttr) : Bool :=
  attrs.contains BindgenAttr.pureVirtual

/-- `has_attr(attrs, "bindgen_unused_template_param_in_arg_or_return")`. -/
def has_unused_template_param_attr (attrs : List BindgenAttr) : Bool :=
  attrs.contains BindgenAttr.unusedTemplateParam

/-- `get_bindgen_special_member_annotation` in the source (renamed for
lexical reasons): the first `bindgen_special_member("...")` payload. -/
def special_member_value (attrs : List BindgenAttr) : Option String :=
  (attrs.filterMap (fun a =>
    match a with
    | BindgenAttr.specialMember v => some v
    | _ => none)).head?

/-- `FnAnalyzer::is_move_constructor`. -/
def is_move_constructor (fi : FuncToConvert) : Bool :=
  (special_member_value fi.attrs).elim false (fun v => v = "move_ctor")

/-- `FnAnalyzer::get_reference_parameters_and_return`: the parameter names
flagged reference-typed by bindgen, and whether the return is so flagged. -/
def get_reference_parameters_and_return (fi : FuncToConvert) : List String × Bool :=
  (fi.attrs.filterMap (fun a =>
     match a with
     | BindgenAttr.argTypeReference n => some n
     | _ => none),
   fi.attrs.contains BindgenAttr.retTypeReference)

/- ### Type conversion -/

/-- Modelled from the spec: `TypeConverter::convert_boxed_type` (outside this
snapshot) in the `CxxOuterType` context — rewrites an outer raw pointer into
a reference when asked to, and reports the named types encountered plus
whether a raw pointer remains (which forces the caution/unsafety flag). -/
def convert_boxed_type (ty : Ty) (convert_ptrs_to_references : Bool) :
    Ty × List QualifiedName × Bool :=
  let ty1 :=
    if convert_ptrs_to_references then
      match ty with
      | Ty.ptr _ elem => Ty.reference elem
      | t => t
    else ty
  (ty1, ty1.depsOf, ty1.containsRawPtr)

/-- `FnAnalyzer::argument_conversion_details`: classify a boundary type in
argument direction. -/
def FnAnalyzer.argument_conversion_details (an : FnAnalyzer) (ty : Ty) :
    TypeConversionPolicy :=
  match ty with
  | Ty.path p =>
      if an.pod_safe_types.contains p then TypeConversionPolicy.new_unconverted ty
      else if known_convertible_from_strs p && !an.config.exclude_utilities then
        TypeConversionPolicy.new_from_str ty
      else TypeConversionPolicy.new_from_unique_ptr ty
  | _ => TypeConversionPolicy.new_unconverted ty

/-- `FnAnalyzer::return_type_conversion_details`: classify a boundary type in
return direction. -/
def FnAnalyzer.return_type_conversion_details (an : FnAnalyzer) (ty : Ty) :
    TypeConversionPolicy :=
  match ty with
  | Ty.path p =>
      if an.pod_safe_types.contains p then TypeConversionPolicy.new_unconverted ty
      else TypeConversionPolicy.new_to_unique_ptr ty
  | _ => TypeConversionPolicy.new_unconverted ty

/-- Tail of `convert_fn_arg` shared by all its branches: run the type
conversion, read off reference-ness from the converted shape, classify the
argument conversion. -/
def finish_fn_arg (an : FnAnalyzer) (new_pat : Pat) (ty : Ty)
    (self_type : Option QualifiedName) (is_virtual : Bool)
    (treat_as_reference : Bool) : FnArgSyn × ArgumentAnalysis :=
  let res := convert_boxed_type ty treat_as_reference
  let new_ty := res.1
  ({ pat := new_pat, ty := new_ty },
   { conversion := an.argument_conversion_details new_ty,
     name := new_pat,
     self_type := self_type,
     was_reference := match new_ty with | Ty.reference _ => true | _ => false,
     deps := res.2.1,
     is_virtual := is_virtual,
     requires_caution := res.2.2 })

/-- `FnAnalyzer::convert_fn_arg`: receiver detection (a parameter named
`this` of pointer-to-named-type shape, with the `c_void` placeholder
substituted by the externally supplied owning type), identifier validation
for ordinary parameters, reference-ness reconciliation, and conversion. -/
def FnAnalyzer.convert_fn_arg (an : FnAnalyzer) (arg : FnArgSyn) (ns : NamespacePath)
    (fn_name : String) (virtual_this : Option QualifiedName)
    (reference_args : List String) :
    Except ConvertError (FnArgSyn × ArgumentAnalysis) :=
  match arg.pat with
  | Pat.ident pn =>
    if pn = "this" then
      match arg.ty with
      | Ty.ptr isMut (Ty.path typ) =>
        if typ.is_cvoid then
          match virtual_this with
          | none => Except.error (ConvertError.VirtualThisType ns fn_name)
          | some vt =>
              Except.ok (finish_fn_arg an (Pat.ident "self")
                (Ty.ptr isMut (Ty.path vt)) (some vt) true true)
        else
          Except.ok (finish_fn_arg an (Pat.ident "self") arg.ty (some typ) false true)
      | _ => Except.error (ConvertError.UnexpectedThisType ns fn_name)
    else
      if validate_ident_ok_for_cxx pn then
        Except.ok (finish_fn_arg an (Pat.ident pn) arg.ty none false
          (reference_args.contains pn))
      else Except.error (ConvertError.InvalidIdent pn)
  | Pat.wild => Except.ok (finish_fn_arg an Pat.wild arg.ty none false false)

/-- `FnAnalyzer::convert_return_type` (direction = return; the constructor
bypass lives in `analyze_foreign_fn`). -/
def FnAnalyzer.convert_return_type (an : FnAnalyzer) (rt : Option Ty)
    (_ns : NamespacePath) (convert_ptr_to_reference : Bool) : ReturnTypeAnalysis :=
  match rt with
  | none => { rt := none, conversion := none, was_reference := false, deps := [] }
  | some ty =>
    let res := convert_boxed_type ty convert_ptr_to_reference
    { rt := some res.1,
      conversion := some (an.return_type_conversion_details res.1),
      was_reference := match res.1 with | Ty.reference _ => true | _ => false,
      deps := res.2.1 }

/- ### The decision engine -/

/-- Seed name computation (`analyze_foreign_fn`, the six-case comment): the
ideal managed-visible name from the optional native-visible override and the
ingestion-assigned identifier, uniform for functions and methods. -/
def seedIdealName (cpp_name : Option String) (initial_rust_name : String) : String :=
  match cpp_name with
  | none => initial_rust_name
  | some cn =>
      if strEndsWith initial_rust_name "_" then initial_rust_name
      else if !validate_ident_ok_for_rust cn then cn ++ "_"
      else cn

/-- The bridge-registry seed for a kind: the owning type's final item for
methods, none for functions. -/
def FnKind.type_name_for_bridge : FnKind → Option String
  | FnKind.Method s _ => some s.item
  | FnKind.Function => none

/-- Is this kind a constructor? -/
def FnKind.is_constructor : FnKind → Bool
  | FnKind.Method _ MethodKind.Constructor => true
  | _ => false

/-- The `wrapper_function_needed` decision (`analyze_foreign_fn`): a C++ shim
is required for static/virtual/pure-virtual methods, for methods whose bridge
name differs from the managed name, whenever an argument or return conversion
needs C++ work, or when the effective native name is not valid in the managed
grammar. -/
def wrapper_function_needed (kind : FnKind) (cxxbridge_name rust_name : String)
    (param_conversion_needed ret_type_conversion_needed
     cpp_name_incompatible_with_cxx : Bool) : Bool :=
  match kind with
  | FnKind.Method _ MethodKind.Static => true
  | FnKind.Method _ MethodKind.Virtual => true
  | FnKind.Method _ MethodKind.PureVirtual => true
  | FnKind.Method _ _ =>
      if cxxbridge_name ≠ rust_name then true
      else param_conversion_needed || ret_type_conversion_needed ||
        cpp_name_incompatible_with_cxx
  | FnKind.Function =>
      param_conversion_needed || ret_type_conversion_needed ||
        cpp_name_incompatible_with_cxx

/-- The early error gates of `analyze_fn_rest`, in source order: a failed
parameter analysis, the unresolvable-template annotation, the
move-constructor annotation, and the receiver-acceptability check.  Returns
the error that fires first, if any. -/
def rest_gate_error (fi : FuncToConvert) (kind : FnKind) (bads : List ConvertError) :
    Option ConvertError :=
  match bads with
  | b :: _ => some b
  | [] =>
    if has_unused_template_param_attr fi.attrs then some ConvertError.UnusedTemplateParam
    else if is_move_constructor fi then some ConvertError.MoveConstructorUnsupported
    else if (match kind with
             | FnKind.Method _ MethodKind.Static => false
             | FnKind.Method s _ => !known_is_cxx_acceptable_receiver s
             | FnKind.Function => false) then some ConvertError.UnsupportedReceiver
    else none

/-- The tail of `analyze_fn_rest` once every gate has passed: the shim
decision and synthesis, bridge-name validation, the final rename strategy,
and assembly of the result record. -/
def rest_build (an : FnAnalyzer) (fi : FuncToConvert) (cpp_name : Option String)
    (ns : NamespacePath) (kind : FnKind) (rust_name : String)
    (cxxbridge_name0 : String) (params0 : List FnArgSyn)
    (param_details : List ArgumentAnalysis) (return_analysis : ReturnTypeAnalysis)
    (requires_caution : Bool) (params_deps : List QualifiedName)
    (ectx : ErrorContext) :
    FnAnalyzer × Except ConvertErrorWithContext (Option ApiFunction) :=
  let deps := params_deps ++ return_analysis.deps
  let ret_type_conversion := return_analysis.conversion
  let param_conversion_needed :=
    param_details.any (fun b => b.conversion.cpp_work_needed)
  let ret_type_conversion_needed :=
    (ret_type_conversion.map (fun x => x.cpp_work_needed)).getD false
  let effective_cpp_name := cpp_name.getD rust_name
  let cpp_name_incompatible_with_cxx :=
    !validate_ident_ok_for_rust effective_cpp_name
  let wres :=
    if wrapper_function_needed kind cxxbridge_name0 rust_name
        param_conversion_needed ret_type_conversion_needed
        cpp_name_incompatible_with_cxx then
      let joiner := if strEndsWith cxxbridge_name0 "_" then "" else "_"
      let new_bridge := cxxbridge_name0 ++ joiner ++ "autocxx_wrapper"
      let pr : CppFunctionBody × Bool :=
        match kind with
        | FnKind.Method _ MethodKind.Constructor =>
            (CppFunctionBody.Constructor, false)
        | FnKind.Method s MethodKind.Static =>
            (CppFunctionBody.StaticMethodCall ns s.item effective_cpp_name, false)
        | FnKind.Method _ _ =>
            (CppFunctionBody.FunctionCall ns effective_cpp_name, true)
        | FnKind.Function =>
            (CppFunctionBody.FunctionCall ns effective_cpp_name, false)
      let ret_type1 :=
        match ret_type_conversion with
        | some conv => some conv.unconverted_rust_type
        | none => return_analysis.rt
      let params1 := param_details.map (fun pd =>
        { pat :=
            if pd.self_type.isSome ∧ ¬ kind.is_constructor then
              Pat.ident "autocxx_gen_this"
            else pd.name,
          ty := pd.conversion.converted_rust_type })
      (new_bridge, ret_type1, params1,
       some { payload := pr.1,
              wrapper_function_name := new_bridge,
              return_conversion := ret_type_conversion,
              argument_conversion := param_details.map (fun d => d.conversion),
              is_a_method := pr.2 })
    else (cxxbridge_name0, return_analysis.rt, params0,
          (none : Option CppFunction))
  if !validate_ident_ok_for_cxx wres.1 then
    (an, Except.error ⟨ConvertError.InvalidIdent wres.1, some ectx⟩)
  else
    let idStrat :=
      match kind with
      | FnKind.Method _ _ => ((rust_name, RustRenameStrategy.None), an)
      | FnKind.Function =>
        let ok := an.ok_to_use_rust_name rust_name
        (if wres.1 = rust_name then (rust_name, RustRenameStrategy.None)
         else if ok.1 then (rust_name, RustRenameStrategy.RenameUsingRustAttr)
         else (wres.1, RustRenameStrategy.RenameInOutputMod rust_name), ok.2)
    (idStrat.2,
     Except.ok (some
       { analysis :=
         { cxxbridge_name := wres.1,
           rust_name := rust_name,
           rust_rename_strategy := idStrat.1.2,
           params := wres.2.2.1,
           kind := kind,
           ret_type := wres.2.1,
           param_details := param_details,
           requires_caution := requires_caution,
           is_public := fi.is_public,
           cpp_wrapper := wres.2.2.2,
           deps := deps },
         result_name := { cpp_name := cpp_name, name := ⟨ns, idStrat.1.1⟩ } }))

/-- Everything in `analyze_foreign_fn` after the kind/name resolution: bridge
name assignment, error gates, return analysis, the reference-return
invariant, then `rest_build`. -/
def FnAnalyzer.analyze_fn_rest (an0 : FnAnalyzer) (fi : FuncToConvert)
    (cpp_name0 : Option String) (ns : NamespacePath)
    (kind : FnKind) (error_context : ErrorContext) (rust_name : String)
    (params0 : List FnArgSyn) (param_details : List ArgumentAnalysis)
    (bads : List ConvertError) (reference_return : Bool)
    (requires_caution : Bool) (params_deps : List QualifiedName) :
    FnAnalyzer × Except ConvertErrorWithContext (Option ApiFunction) :=
  let br := an0.get_cxx_bridge_name kind.type_name_for_bridge rust_name ns
  let cpp_name :=
    if br.1 ≠ rust_name ∧ cpp_name0 = none then some rust_name else cpp_name0
  match rest_gate_error fi kind bads with
  | some e => (br.2, Except.error ⟨e, some error_context⟩)
  | none =>
    let return_analysis : ReturnTypeAnalysis :=
      match kind with
      | FnKind.Method s MethodKind.Constructor =>
          { rt := some (Ty.path s),
            conversion := some (TypeConversionPolicy.new_to_unique_ptr (Ty.path s)),
            was_reference := false,
            deps := [s] }
      | _ => br.2.convert_return_type fi.output ns reference_return
    if return_analysis.was_reference ∧
        (param_details.filter (fun pd => pd.was_reference)).length ≠ 1 then
      (br.2, Except.error ⟨ConvertError.NotOneInputReference rust_name, some error_context⟩)
    else
      rest_build br.2 fi cpp_name ns kind rust_name br.1 params0 param_details
        return_analysis requires_caution params_deps error_context

/-- The ordered per-parameter conversion results of a declaration (the
source of the `param_details`/`bads` partition inside `analyze_foreign_fn`;
named so that theorem statements can refer to it). -/
def FnAnalyzer.param_results (an : FnAnalyzer) (name : ApiName) (fi : FuncToConvert) :
    List (Except ConvertError (FnArgSyn × ArgumentAnalysis)) :=
  fi.inputs.map (fun i =>
    an.convert_fn_arg i name.name.nsPath (name.cpp_name.getD fi.ident)
      fi.virtual_this_type (get_reference_parameters_and_return fi).1)

/-- The successful half of the parameter partition, in order. -/
def okParams (rs : List (Except ConvertError (FnArgSyn × ArgumentAnalysis))) :
    List (FnArgSyn × ArgumentAnalysis) :=
  rs.filterMap (fun r =>
    match r with | Except.ok v => some v | Except.error _ => none)

/-- The failed half of the parameter partition, in order. -/
def badParams (rs : List (Except ConvertError (FnArgSyn × ArgumentAnalysis))) :
    List ConvertError :=
  rs.filterMap (fun r =>
    match r with | Except.error e => some e | Except.ok _ => none)

/-- Owning-type resolution: the first receiver marker among the analyzed
parameters, else the declaration's own `self_ty` marker (in which case it is
a static method).  Returns `(is_static_method, self_ty)`. -/
def FnAnalyzer.resolved_self_ty (an : FnAnalyzer) (name : ApiName) (fi : FuncToConvert) :
    Bool × Option QualifiedName :=
  match (((okParams (an.param_results name fi)).map (fun v => v.2)).filterMap
      (fun pd => pd.self_type)).head? with
  | none => (fi.self_ty.isSome, fi.self_ty)
  | some s => (false, some s)

/-- `FnAnalyzer::analyze_foreign_fn` — the decision engine for one
declaration.  Returns the updated registries plus `Ok(None)` (declaration
silently dropped), `Ok(Some(api))`, or a contextualized error. -/
def FnAnalyzer.analyze_foreign_fn (an : FnAnalyzer) (name : ApiName)
    (fi : FuncToConvert) :
    FnAnalyzer × Except ConvertErrorWithContext (Option ApiFunction) :=
  let cpp_name0 := name.cpp_name
  let ns := name.name.nsPath
  if strEndsWith fi.ident "_destructor" then (an, Except.ok none)
  else
    let rp := get_reference_parameters_and_return fi
    let results := an.param_results name fi
    let oks := okParams results
    let bads := badParams results
    let params0 := oks.map (fun v => v.1)
    let param_details0 := oks.map (fun v => v.2)
    let params_deps := (param_details0.map (fun p => p.deps)).flatten
    let requires_caution :=
      an.should_be_cautious || param_details0.any (fun pd => pd.requires_caution)
    let ideal_rust_name := seedIdealName cpp_name0 fi.ident
    let sm : Bool × Option QualifiedName := an.resolved_self_ty name fi
    match sm.2 with
    | some self_ty =>
      if !an.is_on_allowlist self_ty then (an, Except.ok none)
      else
        let type_ident := self_ty.item
        let tr := (lookupTrackerList an.overload_trackers_by_mod ns).get_method_real_name
          type_ident ideal_rust_name
        let an1 := { an with
          overload_trackers_by_mod := setTrackerList an.overload_trackers_by_mod ns tr.2 }
        if strStartsWith tr.1 type_ident then
          let rust_name := "make_unique" ++ strDrop tr.1 (strLen type_ident)
          an1.analyze_fn_rest fi cpp_name0 ns
            (FnKind.Method self_ty MethodKind.Constructor)
            (ErrorContext.Method type_ident rust_name) rust_name
            (params0.drop 1) (param_details0.drop 1)
            bads rp.2 requires_caution params_deps
        else
          let method_kind :=
            if sm.1 then MethodKind.Static
            else if param_details0.any (fun pd => pd.is_virtual) then
              (if has_pure_virtual_attr fi.attrs then MethodKind.PureVirtual
               else MethodKind.Virtual)
            else MethodKind.Normal
          an1.analyze_fn_rest fi cpp_name0 ns
            (FnKind.Method self_ty method_kind)
            (ErrorContext.Method type_ident tr.1) tr.1
            params0 param_details0
            bads rp.2 requires_caution params_deps
    | none =>
        let tr := (lookupTrackerList an.overload_trackers_by_mod ns).get_function_real_name
          ideal_rust_name
        let an1 := { an with
          overload_trackers_by_mod := setTrackerList an.overload_trackers_by_mod ns tr.2 }
        an1.analyze_fn_rest fi cpp_name0 ns FnKind.Function
          (ErrorContext.Item tr.1) tr.1
          params0 param_details0 bads rp.2 requires_caution params_deps

/- ### `Builder::new` (`gen/build/src/lib.rs`) -/

/-- `GeneratedCpp`'s file pair: a header (with its requested file name) and an
implementation. -/
structure CppFilePair where
  header : String
  implementation : String
  header_name : String
deriving DecidableEq, Repr

deriving instance DecidableEq for Except

/-- One parsed `include_cpp` macro as `Builder::new` consumes it: the include
directories it requests (or an engine error) and the file pairs
`generate_h_and_cxx` yields (or an engine error). -/
structure ParsedMacro where
  include_dirs : Except String (List String)
  generated : Except String (List CppFilePair)
deriving DecidableEq, Repr

/-- `autocxx_build::Error`.  (`TempDirCreationFailed` and `FileWriteFail` are
I/O failures outside the embedding; temporary-directory creation and file
writes are modelled as succeeding.) -/
inductive BuilderError where
  | InvalidCxx (e : String)
  | ParseError (e : String)
  | TempDirCreationFailed
  | FileWriteFail
  | NoIncludeCxxMacrosFound
  | IncludeDirProblem (e : String)
deriving DecidableEq, Repr

/-- The observable effects of a successful `Builder::new`: the include paths
handed to `cc::Build::include`, the generated-implementation paths handed to
`cc::Build::file`, and every `write_to_file` call in order (file name,
content). -/
structure BuilderModel where
  includes : List String
  files : List String
  writes : List (String × String)
deriving DecidableEq, Repr

/-- Body of the `for filepair in generated_code.0` loop: name the
implementation `gen{counter}.cxx`, bump the counter, write the implementation
and the header, and hand the implementation path to the `cc::Build`. -/
def builder_add_filepair (acc : Nat × BuilderModel) (fp : CppFilePair) :
    Nat × BuilderModel :=
  let fname := "gen" ++ toString acc.1 ++ ".cxx"
  (acc.1 + 1,
   { acc.2 with
     files := acc.2.files ++ [fname],
     writes := acc.2.writes ++ [(fname, fp.implementation), (fp.header_name, fp.header)] })

/-- Body of the `for include_cpp in autocxxes` loop: register include dirs
(failing with `IncludeDirProblem`), generate the C++ (failing with
`InvalidCxx`), then process every file pair. -/
def builder_add_macro (acc : Nat × BuilderModel) (m : ParsedMacro) :
    Except BuilderError (Nat × BuilderModel) :=
  match m.include_dirs with
  | Except.error e => Except.error (BuilderError.IncludeDirProblem e)
  | Except.ok dirs =>
    let b1 := { acc.2 with includes := acc.2.includes ++ dirs }
    match m.generated with
    | Except.error e => Except.error (BuilderError.InvalidCxx e)
    | Except.ok pairs => Except.ok (pairs.foldl builder_add_filepair (acc.1, b1))

/-- `Builder::new`: parse the `.rs` file (failing with `ParseError`), process
every discovered `include_cpp` macro, and fail with
`NoIncludeCxxMacrosFound` exactly when the file-pair counter never moved. -/
def builder_new (parsed : Except String (List ParsedMacro)) :
    Except BuilderError BuilderModel :=
  match parsed with
  | Except.error e => Except.error (BuilderError.ParseError e)
  | Except.ok autocxxes =>
    match autocxxes.foldlM builder_add_macro
        (0, { includes := [], files := [], writes := [] }) with
    | Except.error e => Except.error e
    | Except.ok res =>
        if res.1 = 0 then Except.error BuilderError.NoIncludeCxxMacrosFound
        else Except.ok res.2

/- ### Decimal rendering is injective (for the distinctness of `gen{n}.cxx`) -/

/-- Decimal value of a digit character. -/
def decChar (c : Char) : Nat :=
  c.toNat - 48

/-- Step of the decimal decoder. -/
def decStep (a : Nat) (c : Char) : Nat :=
  10 * a + decChar c

theorem decChar_digitChar : ∀ k, k < 10 → decChar (Nat.digitChar k) = k := by
  decide

theorem foldl_toDigitsCore (fuel : Nat) :
    ∀ (n : Nat) (ds : List Char), n < fuel →
      (Nat.toDigitsCore 10 fuel n ds).foldl decStep 0 = ds.foldl decStep n := by
  induction fuel with
  | zero => intro n ds h; omega
  | succ f ih =>
    intro n ds h
    rw [Nat.toDigitsCore]
    by_cases h10 : n / 10 = 0
    · have hn : n < 10 := by omega
      simp only [h10, if_true, List.foldl]
      have hm : n % 10 = n := Nat.mod_eq_of_lt hn
      rw [hm]
      have hstep : decStep 0 n.digitChar = n := by
        simp [decStep, decChar_digitChar n hn]
      rw [hstep]
    · simp only [h10, if_false]
      have hlt : n / 10 < f := by
        have h1 : n / 10 < n := Nat.div_lt_self (by omega) (by omega)
        omega
      rw [ih (n / 10) (Nat.digitChar (n % 10) :: ds) hlt]
      simp only [List.foldl]
      have : decStep (n / 10) (Nat.digitChar (n % 10)) = n := by
        have hm : n % 10 < 10 := Nat.mod_lt n (by omega)
        simp [decStep, decChar_digitChar _ hm]
        omega
      rw [this]

theorem foldl_toDigits (n : Nat) :
    (Nat.toDigits 10 n).foldl decStep 0 = n := by
  rw [Nat.toDigits]
  rw [foldl_toDigitsCore (n + 1) n [] (Nat.lt_succ_self n)]
  rfl

theorem natRepr_injective : Function.Injective Nat.repr := by
  intro m n h
  have hd : Nat.toDigits 10 m = Nat.toDigits 10 n := congrArg String.data h
  have hm := foldl_toDigits m
  rw [hd, foldl_toDigits n] at hm
  exact hm.symm

/-- Char-list contents of a string concatenation. -/
theorem strData_append (a b : String) : (a ++ b).data = a.data ++ b.data := by
  cases a
  cases b
  rfl

/-- The implementation file name chosen for the `i`-th generated pair. -/
def genFileName (i : Nat) : String :=
  "gen" ++ toString i ++ ".cxx"

theorem genFileName_injective : Function.Injective genFileName := by
  intro m n h
  apply natRepr_injective
  have h1 : ("gen" ++ toString m ++ ".cxx" : String).data
      = ("gen" ++ toString n ++ ".cxx" : String).data := congrArg String.data h
  rw [strData_append, strData_append, strData_append, strData_append] at h1
  have h2 := List.append_cancel_right h1
  have h3 := List.append_cancel_left h2
  exact String.ext h3

/- ### Concrete fixtures shared by the witness theorems -/

/-- A POD-safe scalar type. -/
def intQN : QualifiedName := ⟨[], "int"⟩

/-- An allow-listed owning type. -/
def widgetQN : QualifiedName := ⟨[], "Widget"⟩

/-- The known string-like type. -/
def stdStringQN : QualifiedName := ⟨["std"], "string"⟩

/-- A fresh analyzer state: `int` is POD-safe, `Widget` is allow-listed,
string utilities are not excluded, the blanket-safety policy is off. -/
def baseState : FnAnalyzer :=
  { all_fns_cautious := false,
    rust_name_tracker := ⟨[]⟩,
    bridge_name_tracker := ⟨[]⟩,
    pod_safe_types := [intQN],
    config := { allowlist := ["Widget"], exclude_utilities := false },
    overload_trackers_by_mod := [] }

/-- A method of `Widget` that returns a reference and whose only
reference-like input is its receiver. -/
def refMethodFn : FuncToConvert :=
  { ident := "Widget_get_x",
    inputs := [⟨Pat.ident "this", Ty.ptr true (Ty.path widgetQN)⟩],
    output := some (Ty.reference (Ty.path intQN)),
    attrs := [], virtual_this_type := none, self_ty := none, is_public := true }

/- ### Claims -/

/-- C5: the ideal managed-visible name is computed by `seedIdealName` from
the optional native-visible override and the ingestion-assigned identifier
(the same computation for functions and methods): with no override the
ingestion identifier is used unchanged; with an override where the ingestion
identifier carries the keyword-disambiguating `_` suffix, the mangled
ingestion form is kept; with an override from which the ingestion identifier
differs only by a numeric overload suffix, the override is used and the
suffix discarded. -/
theorem claim_C5_seed_name (cn initial : String) :
    (seedIdealName none initial = initial) ∧
    (strEndsWith initial "_" = true → seedIdealName (some cn) initial = initial) ∧
    (∀ sfx : String, initial = cn ++ sfx → sfx.data.all Char.isDigit = true →
      strEndsWith initial "_" = false → validate_ident_ok_for_rust cn = true →
      seedIdealName (some cn) initial = cn) := by
  refine ⟨rfl, fun h => ?_, fun sfx h1 h2 h3 h4 => ?_⟩
  · simp [seedIdealName, h]
  · simp [seedIdealName, h3, h4]

/-- Witness for C5: the three cases at concrete inputs
(`foo`/no override, `move_`/override `move`, `foo1`/override `foo`). -/
theorem claim_C5_witness :
    seedIdealName none "foo" = "foo" ∧
    seedIdealName (some "move") "move_" = "move_" ∧
    seedIdealName (some "foo") "foo1" = "foo" :=
  ⟨(claim_C5_seed_name "x" "foo").1,
   (claim_C5_seed_name "move" "move_").2.1 (by decide),
   (claim_C5_seed_name "foo" "foo1").2.2 "1" (by decide) (by decide) (by decide) (by decide)⟩

/-- C7: the Type Conversion Classifier returns Unconverted in both directions
for every POD-safe type; in argument direction it returns FromBorrowedString
for the known string-like type when string utilities are not excluded, and
FromOwnedPointer for any other non-trivial named type; in return direction it
returns ToOwnedPointer for any non-trivial named type.  Direction is an
explicit input: argument and return direction are separate classifications. -/
theorem claim_C7_type_conversion_classifier (an : FnAnalyzer) (p : QualifiedName) :
    (p ∈ an.pod_safe_types →
      an.argument_conversion_details (Ty.path p)
          = TypeConversionPolicy.new_unconverted (Ty.path p) ∧
      an.return_type_conversion_details (Ty.path p)
          = TypeConversionPolicy.new_unconverted (Ty.path p)) ∧
    (p ∉ an.pod_safe_types → known_convertible_from_strs p = true →
      an.config.exclude_utilities = false →
      an.argument_conversion_details (Ty.path p)
          = TypeConversionPolicy.new_from_str (Ty.path p)) ∧
    (p ∉ an.pod_safe_types →
      (known_convertible_from_strs p && !an.config.exclude_utilities) = false →
      an.argument_conversion_details (Ty.path p)
          = TypeConversionPolicy.new_from_unique_ptr (Ty.path p)) ∧
    (p ∉ an.pod_safe_types →
      an.return_type_conversion_details (Ty.path p)
          = TypeConversionPolicy.new_to_unique_ptr (Ty.path p)) := by
  refine ⟨fun h1 => ?_, fun h1 h2 h3 => ?_, fun h1 h2 => ?_, fun h1 => ?_⟩
  · constructor <;>
      simp [FnAnalyzer.argument_conversion_details,
        FnAnalyzer.return_type_conversion_details, h1]
  · simp [FnAnalyzer.argument_conversion_details, h1, h2, h3]
  · rw [Bool.and_eq_false_iff] at h2
    rcases h2 with h2 | h2 <;>
      simp [FnAnalyzer.argument_conversion_details, h1, h2]
  · simp [FnAnalyzer.return_type_conversion_details, h1]

/-- Witness for C7: `int` (POD-safe) is unconverted both ways; `std::string`
becomes FromBorrowedString as an argument; `Widget` becomes FromOwnedPointer
as an argument and ToOwnedPointer as a return. -/
theorem claim_C7_witness :
    (baseState.argument_conversion_details (Ty.path intQN)
        = TypeConversionPolicy.new_unconverted (Ty.path intQN)) ∧
    (baseState.return_type_conversion_details (Ty.path intQN)
        = TypeConversionPolicy.new_unconverted (Ty.path intQN)) ∧
    (baseState.argument_conversion_details (Ty.path stdStringQN)
        = TypeConversionPolicy.new_from_str (Ty.path stdStringQN)) ∧
    (baseState.argument_conversion_details (Ty.path widgetQN)
        = TypeConversionPolicy.new_from_unique_ptr (Ty.path widgetQN)) ∧
    (baseState.return_type_conversion_details (Ty.path widgetQN)
        = TypeConversionPolicy.new_to_unique_ptr (Ty.path widgetQN)) :=
  ⟨((claim_C7_type_conversion_classifier baseState intQN).1 (by decide)).1,
   ((claim_C7_type_conversion_classifier baseState intQN).1 (by decide)).2,
   (claim_C7_type_conversion_classifier baseState stdStringQN).2.1
     (by decide) (by decide) (by decide),
   (claim_C7_type_conversion_classifier baseState widgetQN).2.2.1 (by decide) (by decide),
   (claim_C7_type_conversion_classifier baseState widgetQN).2.2.2 (by decide)⟩

/-- C8: destructor-pattern names and methods of non-allow-listed owning types
are silently dropped: the analysis returns `Ok(None)` — no result and no
error — leaving the registries untouched.  The destructor filter applies
before any parameter or kind analysis: it fires for every input shape,
including parameter lists whose analysis would fail. -/
theorem claim_C8_silent_drops (an : FnAnalyzer) (name : ApiName) (fi : FuncToConvert) :
    (strEndsWith fi.ident "_destructor" = true →
      an.analyze_foreign_fn name fi = (an, Except.ok none)) ∧
    (∀ T, strEndsWith fi.ident "_destructor" = false →
      (an.resolved_self_ty name fi).2 = some T →
      an.is_on_allowlist T = false →
      an.analyze_foreign_fn name fi = (an, Except.ok none)) := by
  constructor
  · intro h
    simp [FnAnalyzer.analyze_foreign_fn, h]
  · intro T h1 h2 h3
    simp [FnAnalyzer.analyze_foreign_fn, h1, h2, h3]

/-- Witness for C8: a destructor-named declaration with a parameter whose
analysis would fail (`this` of non-pointer shape) is still dropped without
error, and a method of the non-allow-listed type `Gadget` is dropped. -/
theorem claim_C8_witness :
    baseState.analyze_foreign_fn ⟨none, ⟨[], "Widget_destructor"⟩⟩
      { ident := "Widget_destructor",
        inputs := [⟨Pat.ident "this", Ty.other⟩],
        output := none, attrs := [], virtual_this_type := none,
        self_ty := none, is_public := true } = (baseState, Except.ok none) ∧
    baseState.analyze_foreign_fn ⟨none, ⟨[], "Gadget_twist"⟩⟩
      { ident := "Gadget_twist",
        inputs := [⟨Pat.ident "this", Ty.ptr true (Ty.path ⟨[], "Gadget"⟩)⟩],
        output := none, attrs := [], virtual_this_type := none,
        self_ty := none, is_public := true } = (baseState, Except.ok none) :=
  ⟨(claim_C8_silent_drops baseState ⟨none, ⟨[], "Widget_destructor"⟩⟩
      { ident := "Widget_destructor",
        inputs := [⟨Pat.ident "this", Ty.other⟩],
        output := none, attrs := [], virtual_this_type := none,
        self_ty := none, is_public := true }).1 (by decide),
   (claim_C8_silent_drops baseState ⟨none, ⟨[], "Gadget_twist"⟩⟩
      { ident := "Gadget_twist",
        inputs := [⟨Pat.ident "this", Ty.ptr true (Ty.path ⟨[], "Gadget"⟩)⟩],
        output := none, attrs := [], virtual_this_type := none,
        self_ty := none, is_public := true }).2 ⟨[], "Gadget"⟩
     (by decide) (by rfl) (by decide)⟩

/-- C9: a parameter named `this` whose type has pointer-to-named-type shape
(with a real owning type, not the virtual placeholder) is recorded as the
receiver: the pointee becomes the owning type, the parameter is renamed to
`self`, and it is treated as reference-typed — so the receiver counts toward
the exactly-one-reference-typed-parameter requirement, and a method returning
a reference whose only reference-like input is the receiver is accepted. -/
theorem claim_C9_receiver_detection (an : FnAnalyzer) (ns : NamespacePath)
    (fn_name : String) (virtual_this : Option QualifiedName)
    (reference_args : List String) (isMut : Bool) (T : QualifiedName) :
    (T.is_cvoid = false →
      ∀ out, an.convert_fn_arg ⟨Pat.ident "this", Ty.ptr isMut (Ty.path T)⟩ ns fn_name
          virtual_this reference_args = Except.ok out →
        out.2.self_type = some T ∧ out.2.name = Pat.ident "self" ∧
        out.2.was_reference = true) ∧
    ((match (baseState.analyze_foreign_fn ⟨some "get_x", ⟨[], "Widget_get_x"⟩⟩
        refMethodFn).2 with
      | Except.ok (some _) => true
      | _ => false) = true) := by
  constructor
  · intro hcv out hout
    simp only [FnAnalyzer.convert_fn_arg, hcv] at hout
    injection hout with h
    subst h
    refine ⟨rfl, rfl, ?_⟩
    simp [finish_fn_arg, convert_boxed_type]
  · rfl

/-- Witness for C9: the receiver of a concrete `Widget` method. -/
theorem claim_C9_witness :
    (finish_fn_arg baseState (Pat.ident "self") (Ty.ptr true (Ty.path widgetQN))
        (some widgetQN) false true).2.self_type = some widgetQN ∧
    (finish_fn_arg baseState (Pat.ident "self") (Ty.ptr true (Ty.path widgetQN))
        (some widgetQN) false true).2.name = Pat.ident "self" ∧
    (finish_fn_arg baseState (Pat.ident "self") (Ty.ptr true (Ty.path widgetQN))
        (some widgetQN) false true).2.was_reference = true :=
  (claim_C9_receiver_detection baseState [] "f" none [] true widgetQN).1
    (by decide) _ (by rfl)

/- ### C10: `Builder::new` -/

/-- Generated-pair count of one parsed macro (0 for an erroring one). -/
def generatedCount (m : ParsedMacro) : Nat :=
  match m.generated with
  | Except.ok ps => ps.length
  | Except.error _ => 0

/-- Total generated file pairs over all parsed macros. -/
def totalFilePairs (macros : List ParsedMacro) : Nat :=
  (macros.map generatedCount).sum

theorem filepair_fold (pairs : List CppFilePair) :
    ∀ (c : Nat) (b0 : BuilderModel),
      (pairs.foldl builder_add_filepair (c, b0)).1 = c + pairs.length ∧
      (pairs.foldl builder_add_filepair (c, b0)).2.files
        = b0.files ++ (List.range' c pairs.length).map genFileName := by
  induction pairs with
  | nil => intro c b0; simp
  | cons p ps ih =>
    intro c b0
    simp only [List.foldl_cons, builder_add_filepair]
    obtain ⟨h1, h2⟩ := ih (c + 1)
      { b0 with
        files := b0.files ++ ["gen" ++ toString c ++ ".cxx"],
        writes := b0.writes ++
          [("gen" ++ toString c ++ ".cxx", p.implementation), (p.header_name, p.header)] }
    refine ⟨by rw [h1]; simp [List.length_cons]; omega, ?_⟩
    rw [h2]
    simp [genFileName, List.range'_succ, List.append_assoc]

theorem macro_fold (macros : List ParsedMacro)
    (hdirs : ∀ m ∈ macros, ∃ ds, m.include_dirs = Except.ok ds)
    (hgen : ∀ m ∈ macros, ∃ ps, m.generated = Except.ok ps) :
    ∀ (c : Nat) (b0 : BuilderModel), ∃ b1,
      macros.foldlM builder_add_macro (c, b0)
        = Except.ok (c + totalFilePairs macros, b1) ∧
      b1.files = b0.files ++ (List.range' c (totalFilePairs macros)).map genFileName := by
  induction macros with
  | nil =>
    intro c b0
    exact ⟨b0, by simp [totalFilePairs]; rfl, by simp [totalFilePairs]⟩
  | cons m ms ih =>
    intro c b0
    obtain ⟨ds, hds⟩ := hdirs m (by simp)
    obtain ⟨ps, hps⟩ := hgen m (by simp)
    have ihm := ih (fun x hx => hdirs x (List.mem_cons_of_mem m hx))
      (fun x hx => hgen x (List.mem_cons_of_mem m hx))
    obtain ⟨hr1, hr2⟩ := filepair_fold ps c { b0 with includes := b0.includes ++ ds }
    obtain ⟨b3, h3, h4⟩ :=
      ihm (ps.foldl builder_add_filepair (c, { b0 with includes := b0.includes ++ ds })).1
          (ps.foldl builder_add_filepair (c, { b0 with includes := b0.includes ++ ds })).2
    refine ⟨b3, ?_, ?_⟩
    · simp only [List.foldlM_cons, builder_add_macro, hds, hps]
      have hbind :
          (Except.ok (ps.foldl builder_add_filepair
              (c, { b0 with includes := b0.includes ++ ds })) >>= fun x =>
            ms.foldlM builder_add_macro x)
          = ms.foldlM builder_add_macro
              (ps.foldl builder_add_filepair (c, { b0 with includes := b0.includes ++ ds })) := rfl
      rw [hbind]
      rw [show (ps.foldl builder_add_filepair (c, { b0 with includes := b0.includes ++ ds }))
          = ((ps.foldl builder_add_filepair (c, { b0 with includes := b0.includes ++ ds })).1,
             (ps.foldl builder_add_filepair (c, { b0 with includes := b0.includes ++ ds })).2)
        from rfl]
      rw [h3, hr1]
      have : c + ps.length + totalFilePairs ms = c + totalFilePairs (m :: ms) := by
        simp [totalFilePairs, generatedCount, hps]
        omega
      rw [this]
    · rw [h4, hr2, hr1]
      rw [List.append_assoc, ← List.map_append]
      rw [List.range'_append_1]
      have : totalFilePairs ms + ps.length = totalFilePairs (m :: ms) := by
        simp [totalFilePairs, generatedCount, hps]
        omega
      rw [this]

/-- C10: given a successful parse, `Builder::new` fails with
`NoIncludeCxxMacrosFound` exactly when the total number of generated C++ file
pairs over all parsed `include_cxx` macros is zero (including the case of
macros that each generate nothing); otherwise it succeeds and hands the
`cc::Build` the implementation files `gen0.cxx`, `gen1.cxx`, ... in
first-seen order, pairwise distinct, so no generated file overwrites
another. -/
theorem claim_C10_builder_new (macros : List ParsedMacro)
    (hdirs : ∀ m ∈ macros, ∃ ds, m.include_dirs = Except.ok ds)
    (hgen : ∀ m ∈ macros, ∃ ps, m.generated = Except.ok ps) :
    (builder_new (Except.ok macros) = Except.error BuilderError.NoIncludeCxxMacrosFound
      ↔ totalFilePairs macros = 0) ∧
    (∀ b, builder_new (Except.ok macros) = Except.ok b →
      b.files = (List.range (totalFilePairs macros)).map genFileName ∧
      b.files.Nodup) := by
  obtain ⟨b1, h1, h2⟩ := macro_fold macros hdirs hgen 0 ⟨[], [], []⟩
  have hb : builder_new (Except.ok macros)
      = if totalFilePairs macros = 0 then Except.error BuilderError.NoIncludeCxxMacrosFound
        else Except.ok b1 := by
    simp only [builder_new, h1, Nat.zero_add]
  constructor
  · constructor
    · intro h
      by_contra hne
      rw [hb, if_neg hne] at h
      exact Except.noConfusion h
    · intro h
      rw [hb, if_pos h]
  · intro b hok
    rw [hb] at hok
    by_cases hz : totalFilePairs macros = 0
    · rw [if_pos hz] at hok
      exact Except.noConfusion hok
    · rw [if_neg hz] at hok
      injection hok with hok
      have hfiles : b.files = (List.range (totalFilePairs macros)).map genFileName := by
        rw [← hok, h2]
        simp [List.range_eq_range']
      refine ⟨hfiles, ?_⟩
      rw [hfiles]
      exact (List.nodup_range _).map genFileName_injective

/-- Witness for C10: one macro generating two file pairs yields `gen0.cxx`
and `gen1.cxx`; a parse with no macros at all fails with
`NoIncludeCxxMacrosFound`. -/
theorem claim_C10_witness :
    ((builder_new (Except.ok ([] : List ParsedMacro))
        = Except.error BuilderError.NoIncludeCxxMacrosFound)
      ∧ ∀ b, builder_new (Except.ok [ParsedMacro.mk (Except.ok ["inc"])
          (Except.ok [⟨"h1", "impl1", "hdr1.h"⟩, ⟨"h2", "impl2", "hdr2.h"⟩])])
        = Except.ok b → b.files = ["gen0.cxx", "gen1.cxx"] ∧ b.files.Nodup) := by
  constructor
  · exact (claim_C10_builder_new [] (by simp) (by simp)).1.mpr (by rfl)
  · intro b hok
    have h := (claim_C10_builder_new
      [ParsedMacro.mk (Except.ok ["inc"])
        (Except.ok [⟨"h1", "impl1", "hdr1.h"⟩, ⟨"h2", "impl2", "hdr2.h"⟩])]
      (by intro m hm; simp at hm; subst hm; exact ⟨["inc"], rfl⟩)
      (by intro m hm; simp at hm; subst hm;
          exact ⟨[⟨"h1", "impl1", "hdr1.h"⟩, ⟨"h2", "impl2", "hdr2.h"⟩], rfl⟩)).2 b hok
    obtain ⟨hf, hn⟩ := h
    refine ⟨?_, hn⟩
    rw [hf]
    rfl

/- ### Inversion of a successful analysis -/

/-- The bridge name that `analyze_fn_rest` assigns before any wrapper rename. -/
def bridgeNameFor (an0 : FnAnalyzer) (kind : FnKind) (rust_name : String)
    (ns : NamespacePath) : String :=
  (an0.get_cxx_bridge_name kind.type_name_for_bridge rust_name ns).1

/-- The effective `cpp_name` after the bridge-name backfill. -/
def restCppName (an0 : FnAnalyzer) (kind : FnKind) (rust_name : String)
    (ns : NamespacePath) (cpp_name0 : Option String) : Option String :=
  if bridgeNameFor an0 kind rust_name ns ≠ rust_name ∧ cpp_name0 = none then some rust_name
  else cpp_name0

/-- The return analysis `analyze_fn_rest` computes (constructor bypass or the
ordinary conversion). -/
def restReturnAnalysis (an0 : FnAnalyzer) (fi : FuncToConvert) (ns : NamespacePath)
    (kind : FnKind) (rr : Bool) : ReturnTypeAnalysis :=
  match kind with
  | FnKind.Method s MethodKind.Constructor =>
      { rt := some (Ty.path s),
        conversion := some (TypeConversionPolicy.new_to_unique_ptr (Ty.path s)),
        was_reference := false, deps := [s] }
  | _ => an0.convert_return_type fi.output ns rr

/-- The shim decision `analyze_fn_rest` makes, in terms of its inputs. -/
def restWrapperNeeded (an0 : FnAnalyzer) (fi : FuncToConvert) (cpp_name0 : Option String)
    (ns : NamespacePath) (kind : FnKind) (rust_name : String)
    (pds : List ArgumentAnalysis) (rr : Bool) : Bool :=
  wrapper_function_needed kind (bridgeNameFor an0 kind rust_name ns) rust_name
    (pds.any (fun b => b.conversion.cpp_work_needed))
    (((restReturnAnalysis an0 fi ns kind rr).conversion.map
        (fun x => x.cpp_work_needed)).getD false)
    (!validate_ident_ok_for_rust ((restCppName an0 kind rust_name ns cpp_name0).getD rust_name))

theorem pair_err_ne_ok {σ α : Type} (st st' : σ) (e : ConvertErrorWithContext)
    (v : α) :
    (st, (Except.error e : Except ConvertErrorWithContext α)) = (st', Except.ok v) → False := by
  intro h
  have h2 := congrArg Prod.snd h
  exact Except.noConfusion h2

theorem bool_ne_true_eq_false {b : Bool} (h : ¬ b = true) : b = false := by
  cases b
  · rfl
  · exact absurd rfl h

set_option maxHeartbeats 1000000 in
theorem rest_build_ok_some
    (an : FnAnalyzer) (fi : FuncToConvert) (cpp_name : Option String)
    (ns : NamespacePath) (kind : FnKind) (rust_name : String)
    (cxx0 : String) (params0 : List FnArgSyn) (pds : List ArgumentAnalysis)
    (RA : ReturnTypeAnalysis) (rc : Bool) (pdeps : List QualifiedName)
    (ectx : ErrorContext) (an2 : FnAnalyzer) (api : ApiFunction)
    (h : rest_build an fi cpp_name ns kind rust_name cxx0 params0 pds RA rc pdeps ectx
      = (an2, Except.ok (some api))) :
    api.analysis.kind = kind ∧
    api.analysis.rust_name = rust_name ∧
    api.analysis.param_details = pds ∧
    api.analysis.cpp_wrapper.isSome = wrapper_function_needed kind cxx0 rust_name
        (pds.any (fun b => b.conversion.cpp_work_needed))
        ((RA.conversion.map (fun x => x.cpp_work_needed)).getD false)
        (!validate_ident_ok_for_rust (cpp_name.getD rust_name)) ∧
    (wrapper_function_needed kind cxx0 rust_name
        (pds.any (fun b => b.conversion.cpp_work_needed))
        ((RA.conversion.map (fun x => x.cpp_work_needed)).getD false)
        (!validate_ident_ok_for_rust (cpp_name.getD rust_name)) = false →
      api.analysis.cxxbridge_name = cxx0 ∧ api.analysis.ret_type = RA.rt ∧
      api.analysis.params = params0) ∧
    (wrapper_function_needed kind cxx0 rust_name
        (pds.any (fun b => b.conversion.cpp_work_needed))
        ((RA.conversion.map (fun x => x.cpp_work_needed)).getD false)
        (!validate_ident_ok_for_rust (cpp_name.getD rust_name)) = true →
      ∃ cw, api.analysis.cpp_wrapper = some cw ∧
        cw.return_conversion = RA.conversion ∧
        api.analysis.ret_type =
          (match RA.conversion with
           | some conv => some conv.unconverted_rust_type
           | none => RA.rt) ∧
        api.analysis.cxxbridge_name =
          cxx0 ++ (if strEndsWith cxx0 "_" then "" else "_") ++ "autocxx_wrapper") ∧
    (∀ s mk2, kind = FnKind.Method s mk2 →
      api.analysis.rust_rename_strategy = RustRenameStrategy.None ∧
      api.result_name = ⟨cpp_name, ⟨ns, rust_name⟩⟩) ∧
    (kind = FnKind.Function →
      (api.analysis.cxxbridge_name = rust_name →
        api.analysis.rust_rename_strategy = RustRenameStrategy.None ∧
        api.result_name.name = ⟨ns, rust_name⟩) ∧
      (api.analysis.cxxbridge_name ≠ rust_name →
        (an.rust_name_tracker.names.contains rust_name = false →
          api.analysis.rust_rename_strategy = RustRenameStrategy.RenameUsingRustAttr ∧
          api.result_name.name = ⟨ns, rust_name⟩) ∧
        (an.rust_name_tracker.names.contains rust_name = true →
          api.analysis.rust_rename_strategy
            = RustRenameStrategy.RenameInOutputMod rust_name ∧
          api.result_name.name = ⟨ns, api.analysis.cxxbridge_name⟩))) := by
  unfold rest_build at h
  dsimp only at h
  split at h
  next hw =>
    split at h
    next hj =>
      split at h
      · exact (pair_err_ne_ok _ _ _ _ h).elim
      next hval =>
        split at h
        next s0 mk0 =>
          have hsnd := congrArg Prod.snd h
          dsimp only at hsnd
          injection hsnd with h3
          injection h3 with h4
          subst h4
          refine ⟨rfl, rfl, rfl, by simp [hw], ?_, ?_, ?_, ?_⟩
          · intro hfalse; rw [hw] at hfalse; exact absurd hfalse (by simp)
          · intro _
            exact ⟨_, rfl, rfl, rfl, by simp [hj]⟩
          · intro s mk2 hk
            exact ⟨rfl, rfl⟩
          · intro hk
            exact absurd hk (by simp)
        next =>
          split at h
          next heq =>
            have hsnd := congrArg Prod.snd h
            dsimp only at hsnd
            injection hsnd with h3
            injection h3 with h4
            subst h4
            refine ⟨rfl, rfl, rfl, by simp [hw], ?_, ?_, ?_, ?_⟩
            · intro hfalse; rw [hw] at hfalse; exact absurd hfalse (by simp)
            · intro _
              exact ⟨_, rfl, rfl, rfl, by simp [hj]⟩
            · intro s mk2 hk
              exact absurd hk (by simp)
            · intro _
              refine ⟨fun _ => ⟨rfl, by rw [← heq]⟩, fun hne => absurd heq hne⟩
          next hne0 =>
            split at h
            next hok =>
              have hsnd := congrArg Prod.snd h
              dsimp only at hsnd
              injection hsnd with h3
              injection h3 with h4
              subst h4
              simp [FnAnalyzer.ok_to_use_rust_name,
                RustNameTracker.ok_to_use_rust_name] at hok
              refine ⟨rfl, rfl, rfl, by simp [hw], ?_, ?_, ?_, ?_⟩
              · intro hfalse; rw [hw] at hfalse; exact absurd hfalse (by simp)
              · intro _
                exact ⟨_, rfl, rfl, rfl, by simp [hj]⟩
              · intro s mk2 hk
                exact absurd hk (by simp)
              · intro _
                refine ⟨fun hcontra => absurd hcontra hne0,
                  fun _ => ⟨fun _ => ⟨rfl, rfl⟩, fun hc => ?_⟩⟩
                simp at hc
                exact absurd hc hok
            next hok =>
              have hsnd := congrArg Prod.snd h
              dsimp only at hsnd
              injection hsnd with h3
              injection h3 with h4
              subst h4
              simp [FnAnalyzer.ok_to_use_rust_name,
                RustNameTracker.ok_to_use_rust_name] at hok
              refine ⟨rfl, rfl, rfl, by simp [hw], ?_, ?_, ?_, ?_⟩
              · intro hfalse; rw [hw] at hfalse; exact absurd hfalse (by simp)
              · intro _
                exact ⟨_, rfl, rfl, rfl, by simp [hj]⟩
              · intro s mk2 hk
                exact absurd hk (by simp)
              · intro _
                refine ⟨fun hcontra => absurd hcontra hne0,
                  fun _ => ⟨fun hc => ?_, fun _ => ⟨rfl, rfl⟩⟩⟩
                simp at hc
                exact absurd hok hc
    next hj =>
      split at h
      · exact (pair_err_ne_ok _ _ _ _ h).elim
      next hval =>
        split at h
        next s0 mk0 =>
          have hsnd := congrArg Prod.snd h
          dsimp only at hsnd
          injection hsnd with h3
          injection h3 with h4
          subst h4
          refine ⟨rfl, rfl, rfl, by simp [hw], ?_, ?_, ?_, ?_⟩
          · intro hfalse; rw [hw] at hfalse; exact absurd hfalse (by simp)
          · intro _
            exact ⟨_, rfl, rfl, rfl, by simp [hj]⟩
          · intro s mk2 hk
            exact ⟨rfl, rfl⟩
          · intro hk
            exact absurd hk (by simp)
        next =>
          split at h
          next heq =>
            have hsnd := congrArg Prod.snd h
            dsimp only at hsnd
            injection hsnd with h3
            injection h3 with h4
            subst h4
            refine ⟨rfl, rfl, rfl, by simp [hw], ?_, ?_, ?_, ?_⟩
            · intro hfalse; rw [hw] at hfalse; exact absurd hfalse (by simp)
            · intro _
              exact ⟨_, rfl, rfl, rfl, by simp [hj]⟩
            · intro s mk2 hk
              exact absurd hk (by simp)
            · intro _
              refine ⟨fun _ => ⟨rfl, by rw [← heq]⟩, fun hne => absurd heq hne⟩
          next hne0 =>
            split at h
            next hok =>
              have hsnd := congrArg Prod.snd h
              dsimp only at hsnd
              injection hsnd with h3
              injection h3 with h4
              subst h4
              simp [FnAnalyzer.ok_to_use_rust_name,
                RustNameTracker.ok_to_use_rust_name] at hok
              refine ⟨rfl, rfl, rfl, by simp [hw], ?_, ?_, ?_, ?_⟩
              · intro hfalse; rw [hw] at hfalse; exact absurd hfalse (by simp)
              · intro _
                exact ⟨_, rfl, rfl, rfl, by simp [hj]⟩
              · intro s mk2 hk
                exact absurd hk (by simp)
              · intro _
                refine ⟨fun hcontra => absurd hcontra hne0,
                  fun _ => ⟨fun _ => ⟨rfl, rfl⟩, fun hc => ?_⟩⟩
                simp at hc
                exact absurd hc hok
            next hok =>
              have hsnd := congrArg Prod.snd h
              dsimp only at hsnd
              injection hsnd with h3
              injection h3 with h4
              subst h4
              simp [FnAnalyzer.ok_to_use_rust_name,
                RustNameTracker.ok_to_use_rust_name] at hok
              refine ⟨rfl, rfl, rfl, by simp [hw], ?_, ?_, ?_, ?_⟩
              · intro hfalse; rw [hw] at hfalse; exact absurd hfalse (by simp)
              · intro _
                exact ⟨_, rfl, rfl, rfl, by simp [hj]⟩
              · intro s mk2 hk
                exact absurd hk (by simp)
              · intro _
                refine ⟨fun hcontra => absurd hcontra hne0,
                  fun _ => ⟨fun hc => ?_, fun _ => ⟨rfl, rfl⟩⟩⟩
                simp at hc
                exact absurd hok hc
  next hw =>
    have hwf := bool_ne_true_eq_false hw
    split at h
    · exact (pair_err_ne_ok _ _ _ _ h).elim
    next hval =>
      split at h
      next s0 mk0 =>
        have hsnd := congrArg Prod.snd h
        dsimp only at hsnd
        injection hsnd with h3
        injection h3 with h4
        subst h4
        refine ⟨rfl, rfl, rfl, by simp [hwf], ?_, ?_, ?_, ?_⟩
        · intro _
          exact ⟨rfl, rfl, rfl⟩
        · intro htrue; rw [hwf] at htrue; exact absurd htrue (by simp)
        · intro s mk2 hk
          exact ⟨rfl, rfl⟩
        · intro hk
          exact absurd hk (by simp)
      next =>
        split at h
        next heq =>
          have hsnd := congrArg Prod.snd h
          dsimp only at hsnd
          injection hsnd with h3
          injection h3 with h4
          subst h4
          refine ⟨rfl, rfl, rfl, by simp [hwf], ?_, ?_, ?_, ?_⟩
          · intro _
            exact ⟨rfl, rfl, rfl⟩
          · intro htrue; rw [hwf] at htrue; exact absurd htrue (by simp)
          · intro s mk2 hk
            exact absurd hk (by simp)
          · intro _
            refine ⟨fun _ => ⟨rfl, by rw [← heq]⟩, fun hne => absurd heq hne⟩
        next hne0 =>
          split at h
          next hok =>
            have hsnd := congrArg Prod.snd h
            dsimp only at hsnd
            injection hsnd with h3
            injection h3 with h4
            subst h4
            simp [FnAnalyzer.ok_to_use_rust_name,
              RustNameTracker.ok_to_use_rust_name] at hok
            refine ⟨rfl, rfl, rfl, by simp [hwf], ?_, ?_, ?_, ?_⟩
            · intro _
              exact ⟨rfl, rfl, rfl⟩
            · intro htrue; rw [hwf] at htrue; exact absurd htrue (by simp)
            · intro s mk2 hk
              exact absurd hk (by simp)
            · intro _
              refine ⟨fun hcontra => absurd hcontra hne0,
                fun _ => ⟨fun _ => ⟨rfl, rfl⟩, fun hc => ?_⟩⟩
              simp at hc
              exact absurd hc hok
          next hok =>
            have hsnd := congrArg Prod.snd h
            dsimp only at hsnd
            injection hsnd with h3
            injection h3 with h4
            subst h4
            simp [FnAnalyzer.ok_to_use_rust_name,
              RustNameTracker.ok_to_use_rust_name] at hok
            refine ⟨rfl, rfl, rfl, by simp [hwf], ?_, ?_, ?_, ?_⟩
            · intro _
              exact ⟨rfl, rfl, rfl⟩
            · intro htrue; rw [hwf] at htrue; exact absurd htrue (by simp)
            · intro s mk2 hk
              exact absurd hk (by simp)
            · intro _
              refine ⟨fun hcontra => absurd hcontra hne0,
                fun _ => ⟨fun hc => ?_, fun _ => ⟨rfl, rfl⟩⟩⟩
              simp at hc
              exact absurd hok hc

theorem rest_gate_none_bads {fi : FuncToConvert} {kind : FnKind}
    {bads : List ConvertError} (h : rest_gate_error fi kind bads = none) :
    bads = [] := by
  cases bads with
  | nil => rfl
  | cons b bs => simp [rest_gate_error] at h

set_option maxHeartbeats 1000000 in
theorem analyze_fn_rest_ok_some
    (an0 : FnAnalyzer) (fi : FuncToConvert) (cpp_name0 : Option String)
    (ns : NamespacePath) (kind : FnKind) (ectx : ErrorContext) (rust_name : String)
    (params0 : List FnArgSyn) (pds : List ArgumentAnalysis)
    (bads : List ConvertError) (rr : Bool) (rc : Bool) (pdeps : List QualifiedName)
    (an2 : FnAnalyzer) (api : ApiFunction)
    (h : an0.analyze_fn_rest fi cpp_name0 ns kind ectx rust_name params0 pds
      bads rr rc pdeps = (an2, Except.ok (some api))) :
    bads = [] ∧
    ((restReturnAnalysis an0 fi ns kind rr).was_reference = true →
      (pds.filter (fun pd => pd.was_reference)).length = 1) ∧
    api.analysis.kind = kind ∧
    api.analysis.rust_name = rust_name ∧
    api.analysis.param_details = pds ∧
    api.analysis.cpp_wrapper.isSome
      = restWrapperNeeded an0 fi cpp_name0 ns kind rust_name pds rr ∧
    (restWrapperNeeded an0 fi cpp_name0 ns kind rust_name pds rr = false →
      api.analysis.cxxbridge_name = bridgeNameFor an0 kind rust_name ns ∧
      api.analysis.ret_type = (restReturnAnalysis an0 fi ns kind rr).rt ∧
      api.analysis.params = params0) ∧
    (restWrapperNeeded an0 fi cpp_name0 ns kind rust_name pds rr = true →
      ∃ cw, api.analysis.cpp_wrapper = some cw ∧
        cw.return_conversion = (restReturnAnalysis an0 fi ns kind rr).conversion ∧
        api.analysis.ret_type =
          (match (restReturnAnalysis an0 fi ns kind rr).conversion with
           | some conv => some conv.unconverted_rust_type
           | none => (restReturnAnalysis an0 fi ns kind rr).rt) ∧
        api.analysis.cxxbridge_name =
          bridgeNameFor an0 kind rust_name ns ++
            (if strEndsWith (bridgeNameFor an0 kind rust_name ns) "_" then "" else "_") ++
            "autocxx_wrapper") ∧
    (∀ s mk2, kind = FnKind.Method s mk2 →
      api.analysis.rust_rename_strategy = RustRenameStrategy.None ∧
      api.result_name = ⟨restCppName an0 kind rust_name ns cpp_name0, ⟨ns, rust_name⟩⟩) ∧
    (kind = FnKind.Function →
      (api.analysis.cxxbridge_name = rust_name →
        api.analysis.rust_rename_strategy = RustRenameStrategy.None ∧
        api.result_name.name = ⟨ns, rust_name⟩) ∧
      (api.analysis.cxxbridge_name ≠ rust_name →
        (an0.rust_name_tracker.names.contains rust_name = false →
          api.analysis.rust_rename_strategy = RustRenameStrategy.RenameUsingRustAttr ∧
          api.result_name.name = ⟨ns, rust_name⟩) ∧
        (an0.rust_name_tracker.names.contains rust_name = true →
          api.analysis.rust_rename_strategy
            = RustRenameStrategy.RenameInOutputMod rust_name ∧
          api.result_name.name = ⟨ns, api.analysis.cxxbridge_name⟩))) := by
  unfold FnAnalyzer.analyze_fn_rest at h
  dsimp only at h
  split at h
  · exact (pair_err_ne_ok _ _ _ _ h).elim
  next hgate =>
    split at h
    next href =>
      exact (pair_err_ne_ok _ _ _ _ h).elim
    next href =>
      have hb := rest_build_ok_some _ _ _ _ _ _ _ _ _ _ _ _ _ _ _ h
      refine ⟨rest_gate_none_bads hgate, ?_, hb.1, hb.2.1, hb.2.2.1, hb.2.2.2.1,
        hb.2.2.2.2.1, hb.2.2.2.2.2.1, hb.2.2.2.2.2.2.1, hb.2.2.2.2.2.2.2⟩
      intro hwr
      by_contra hcount
      exact href ⟨hwr, hcount⟩

theorem pair_none_ne_some {σ α : Type} (st st' : σ) (v : α) :
    (st, (Except.ok none : Except ConvertErrorWithContext (Option α)))
      = (st', Except.ok (some v)) → False := by
  intro h
  have h2 := congrArg Prod.snd h
  injection h2 with h3
  exact Option.noConfusion h3

set_option maxHeartbeats 1000000 in
/-- C6: in every successful result, a method always receives
`RustRenameStrategy.None` (NoRenameNeeded); a free function receives `None`
when its bridge-entry name equals its managed-visible name,
`RenameUsingRustAttr` when they differ and the managed name is still free in
the Managed-Name Registry, and otherwise `RenameInOutputMod`, in which case
the result is registered under the bridge-entry name with the managed name
kept as the alias target. -/
theorem claim_C6_rename_strategy (an : FnAnalyzer) (name : ApiName)
    (fi : FuncToConvert) (an2 : FnAnalyzer) (api : ApiFunction)
    (h : an.analyze_foreign_fn name fi = (an2, Except.ok (some api))) :
    (∀ t mk2, api.analysis.kind = FnKind.Method t mk2 →
      api.analysis.rust_rename_strategy = RustRenameStrategy.None) ∧
    (api.analysis.kind = FnKind.Function →
      (api.analysis.cxxbridge_name = api.analysis.rust_name →
        api.analysis.rust_rename_strategy = RustRenameStrategy.None) ∧
      (api.analysis.cxxbridge_name ≠ api.analysis.rust_name →
        (an.rust_name_tracker.names.contains api.analysis.rust_name = false →
          api.analysis.rust_rename_strategy
            = RustRenameStrategy.RenameUsingRustAttr) ∧
        (an.rust_name_tracker.names.contains api.analysis.rust_name = true →
          api.analysis.rust_rename_strategy
            = RustRenameStrategy.RenameInOutputMod api.analysis.rust_name ∧
          api.result_name.name
            = ⟨name.name.nsPath, api.analysis.cxxbridge_name⟩))) := by
  unfold FnAnalyzer.analyze_foreign_fn at h
  dsimp only at h
  split at h
  · exact (pair_none_ne_some _ _ _ h).elim
  next hnd =>
    split at h
    next s heqself =>
      split at h
      next hallow => exact (pair_none_ne_some _ _ _ h).elim
      next hallow =>
        split at h
        next hctor =>
          have hb := analyze_fn_rest_ok_some _ _ _ _ _ _ _ _ _ _ _ _ _ _ _ h
          constructor
          · intro t mk2 _
            exact (hb.2.2.2.2.2.2.2.2.1 s MethodKind.Constructor rfl).1
          · intro hcontra
            rw [hb.2.2.1] at hcontra
            exact FnKind.noConfusion hcontra
        next hctor =>
          have hb := analyze_fn_rest_ok_some _ _ _ _ _ _ _ _ _ _ _ _ _ _ _ h
          constructor
          · intro t mk2 _
            exact (hb.2.2.2.2.2.2.2.2.1 s _ rfl).1
          · intro hcontra
            rw [hb.2.2.1] at hcontra
            exact FnKind.noConfusion hcontra
    next heqself =>
      have hb := analyze_fn_rest_ok_some _ _ _ _ _ _ _ _ _ _ _ _ _ _ _ h
      constructor
      · intro t mk2 hcontra
        rw [hb.2.2.1] at hcontra
        exact FnKind.noConfusion hcontra
      · intro _
        rw [hb.2.2.2.1]
        have hf := hb.2.2.2.2.2.2.2.2.2 rfl
        exact ⟨fun hceq => (hf.1 hceq).1,
          fun hne => ⟨fun hc => ((hf.2 hne).1 hc).1, fun hc => (hf.2 hne).2 hc⟩⟩

set_option maxHeartbeats 1000000 in
/-- C2: every successful result whose analyzed return type is
reference-typed has exactly one reference-typed parameter; and whenever the
analysis reaches the reference-return gate with a reference-typed return and
a reference-parameter count different from one, it fails with
`NotOneInputReference` (AmbiguousReferenceReturn) carrying the function's
name and its identity context. -/
theorem claim_C2_reference_return_invariant :
    (∀ (an : FnAnalyzer) (name : ApiName) (fi : FuncToConvert)
        (an2 : FnAnalyzer) (api : ApiFunction),
      an.analyze_foreign_fn name fi = (an2, Except.ok (some api)) →
      (∀ t, api.analysis.kind ≠ FnKind.Method t MethodKind.Constructor) →
      (an.convert_return_type fi.output name.name.nsPath
          (get_reference_parameters_and_return fi).2).was_reference = true →
      (api.analysis.param_details.filter (fun pd => pd.was_reference)).length = 1) ∧
    (∀ (an0 : FnAnalyzer) (fi : FuncToConvert) (cpp_name0 : Option String)
        (ns : NamespacePath) (kind : FnKind) (ectx : ErrorContext) (rust_name : String)
        (params0 : List FnArgSyn) (pds : List ArgumentAnalysis)
        (rr : Bool) (rc : Bool) (pdeps : List QualifiedName),
      rest_gate_error fi kind [] = none →
      (restReturnAnalysis an0 fi ns kind rr).was_reference = true →
      (pds.filter (fun pd => pd.was_reference)).length ≠ 1 →
      an0.analyze_fn_rest fi cpp_name0 ns kind ectx rust_name params0 pds [] rr rc pdeps
        = ((an0.get_cxx_bridge_name kind.type_name_for_bridge rust_name ns).2,
           Except.error ⟨ConvertError.NotOneInputReference rust_name, some ectx⟩)) := by
  constructor
  · intro an name fi an2 api h hnc href
    unfold FnAnalyzer.analyze_foreign_fn at h
    dsimp only at h
    split at h
    · exact (pair_none_ne_some _ _ _ h).elim
    next hnd =>
      split at h
      next s heqself =>
        split at h
        next hallow => exact (pair_none_ne_some _ _ _ h).elim
        next hallow =>
          split at h
          next hctor =>
            have hb := analyze_fn_rest_ok_some _ _ _ _ _ _ _ _ _ _ _ _ _ _ _ h
            exact absurd hb.2.2.1 (hnc s)
          next hctor =>
            split at h
            next hstatic =>
              have hb := analyze_fn_rest_ok_some _ _ _ _ _ _ _ _ _ _ _ _ _ _ _ h
              rw [hb.2.2.2.2.1]
              exact hb.2.1 href
            next hstatic =>
              split at h
              next hvirt =>
                split at h
                next hpure =>
                  have hb := analyze_fn_rest_ok_some _ _ _ _ _ _ _ _ _ _ _ _ _ _ _ h
                  rw [hb.2.2.2.2.1]
                  exact hb.2.1 href
                next hpure =>
                  have hb := analyze_fn_rest_ok_some _ _ _ _ _ _ _ _ _ _ _ _ _ _ _ h
                  rw [hb.2.2.2.2.1]
                  exact hb.2.1 href
              next hvirt =>
                have hb := analyze_fn_rest_ok_some _ _ _ _ _ _ _ _ _ _ _ _ _ _ _ h
                rw [hb.2.2.2.2.1]
                exact hb.2.1 href
      next heqself =>
        have hb := analyze_fn_rest_ok_some _ _ _ _ _ _ _ _ _ _ _ _ _ _ _ h
        rw [hb.2.2.2.2.1]
        exact hb.2.1 href
  · intro an0 fi cpp_name0 ns kind ectx rust_name params0 pds rr rc pdeps hgate hwr hcount
    unfold FnAnalyzer.analyze_fn_rest
    dsimp only
    rw [hgate]
    dsimp only
    split
    · rfl
    next hcond =>
      exact absurd ⟨hwr, hcount⟩ hcond

/-- The name the Overload Registry assigns for a prospective method of `T`
(after owning-type prefix stripping), as `analyze_foreign_fn` computes it. -/
def methodStrippedName (an : FnAnalyzer) (name : ApiName) (fi : FuncToConvert)
    (T : QualifiedName) : String :=
  ((lookupTrackerList an.overload_trackers_by_mod name.name.nsPath).get_method_real_name
      T.item (seedIdealName name.cpp_name fi.ident)).1

theorem restWrapperNeeded_constructor (an0 : FnAnalyzer) (fi : FuncToConvert)
    (cpp0 : Option String) (ns : NamespacePath) (T : QualifiedName)
    (rust : String) (pds : List ArgumentAnalysis) (rr : Bool) :
    restWrapperNeeded an0 fi cpp0 ns (FnKind.Method T MethodKind.Constructor) rust pds rr
      = true := by
  unfold restWrapperNeeded wrapper_function_needed restReturnAnalysis
  dsimp only [TypeConversionPolicy.cpp_work_needed, Option.map, Option.getD]
  split
  · rfl
  · simp

set_option maxHeartbeats 1000000 in
/-- C1: every successful method result of owning type `T` whose ideal name,
after stripping the owning-type head via the Overload Registry, still begins
with `T`'s name is classified `Constructor`, renamed to `make_unique` plus
the remaining overload-distinguishing suffix, has the receiver parameter
removed from its parameter list, and has its return forced to an owned
pointer to `T` (return type `T` with a ToOwnedPointer return conversion in
the shim). -/
theorem claim_C1_constructor_detection (an : FnAnalyzer) (name : ApiName)
    (fi : FuncToConvert) (an2 : FnAnalyzer) (api : ApiFunction) (T : QualifiedName)
    (h : an.analyze_foreign_fn name fi = (an2, Except.ok (some api)))
    (hmethod : ∃ mk2, api.analysis.kind = FnKind.Method T mk2)
    (hstrip : strStartsWith (methodStrippedName an name fi T) T.item = true) :
    api.analysis.kind = FnKind.Method T MethodKind.Constructor ∧
    api.analysis.rust_name
      = "make_unique" ++ strDrop (methodStrippedName an name fi T) (strLen T.item) ∧
    api.analysis.param_details
      = ((okParams (an.param_results name fi)).map (fun v => v.2)).drop 1 ∧
    api.analysis.ret_type = some (Ty.path T) ∧
    (∃ cw, api.analysis.cpp_wrapper = some cw ∧
      cw.return_conversion = some (TypeConversionPolicy.new_to_unique_ptr (Ty.path T))) := by
  obtain ⟨mk0, hmk0⟩ := hmethod
  unfold FnAnalyzer.analyze_foreign_fn at h
  dsimp only at h
  split at h
  · exact (pair_none_ne_some _ _ _ h).elim
  next hnd =>
    split at h
    next s heqself =>
      split at h
      next hallow => exact (pair_none_ne_some _ _ _ h).elim
      next hallow =>
        split at h
        next hctor =>
          have hb := analyze_fn_rest_ok_some _ _ _ _ _ _ _ _ _ _ _ _ _ _ _ h
          rw [hb.2.2.1] at hmk0
          injection hmk0 with hsT hmk2
          subst hsT
          have hw := hb.2.2.2.2.2.2.2.1 (restWrapperNeeded_constructor _ _ _ _ _ _ _ _)
          obtain ⟨cw, hcw, hconv, hrt, hcxx⟩ := hw
          refine ⟨hb.2.2.1, hb.2.2.2.1, hb.2.2.2.2.1, ?_, ⟨cw, hcw, hconv⟩⟩
          exact hrt
        next hctor =>
          have hb := analyze_fn_rest_ok_some _ _ _ _ _ _ _ _ _ _ _ _ _ _ _ h
          rw [hb.2.2.1] at hmk0
          injection hmk0 with hsT hmk2
          subst hsT
          exact absurd hstrip hctor
    next heqself =>
      have hb := analyze_fn_rest_ok_some _ _ _ _ _ _ _ _ _ _ _ _ _ _ _ h
      rw [hb.2.2.1] at hmk0
      exact FnKind.noConfusion hmk0

theorem strLen_append (a b : String) : strLen (a ++ b) = strLen a + strLen b := by
  unfold strLen
  rw [strData_append]
  exact List.length_append _ _

theorem strLen_le_bridgeNameFor (an0 : FnAnalyzer) (kind : FnKind) (rust : String)
    (ns : NamespacePath) :
    strLen rust ≤ strLen (bridgeNameFor an0 kind rust ns) := by
  unfold bridgeNameFor FnAnalyzer.get_cxx_bridge_name
    BridgeNameTracker.get_unique_cxx_bridge_name
  dsimp only
  split
  · exact Nat.le_refl _
  · split
    · simp [strLen_append]
      omega
    · simp [strLen_append]

theorem restWrapperNeeded_svp (an0 : FnAnalyzer) (fi : FuncToConvert)
    (cpp0 : Option String) (ns : NamespacePath) (s : QualifiedName) (rust : String)
    (pds : List ArgumentAnalysis) (rr : Bool) (mk2 : MethodKind)
    (hm : mk2 = MethodKind.Static ∨ mk2 = MethodKind.Virtual ∨ mk2 = MethodKind.PureVirtual) :
    restWrapperNeeded an0 fi cpp0 ns (FnKind.Method s mk2) rust pds rr = true := by
  rcases hm with rfl | rfl | rfl <;> rfl

theorem restWrapperNeeded_normal_false (an0 : FnAnalyzer) (fi : FuncToConvert)
    (cpp0 : Option String) (ns : NamespacePath) (s : QualifiedName) (rust : String)
    (pds : List ArgumentAnalysis) (rr : Bool)
    (hcc : bridgeNameFor an0 (FnKind.Method s MethodKind.Normal) rust ns = rust)
    (hpc : pds.any (fun b => b.conversion.cpp_work_needed) = false)
    (hrc : (((restReturnAnalysis an0 fi ns (FnKind.Method s MethodKind.Normal) rr).conversion).map
        (fun x => x.cpp_work_needed)).getD false = false)
    (hic : validate_ident_ok_for_rust
        ((restCppName an0 (FnKind.Method s MethodKind.Normal) rust ns cpp0).getD rust) = true) :
    restWrapperNeeded an0 fi cpp0 ns (FnKind.Method s MethodKind.Normal) rust pds rr
      = false := by
  unfold restWrapperNeeded wrapper_function_needed
  dsimp only
  simp [hcc, hpc, hrc, hic]

theorem restWrapperNeeded_method_names_differ (an0 : FnAnalyzer) (fi : FuncToConvert)
    (cpp0 : Option String) (ns : NamespacePath) (s : QualifiedName) (mk2 : MethodKind)
    (rust : String) (pds : List ArgumentAnalysis) (rr : Bool)
    (hne : bridgeNameFor an0 (FnKind.Method s mk2) rust ns ≠ rust) :
    restWrapperNeeded an0 fi cpp0 ns (FnKind.Method s mk2) rust pds rr = true := by
  cases mk2
  case Normal =>
    unfold restWrapperNeeded wrapper_function_needed
    dsimp only
    simp [hne]
  case Constructor =>
    unfold restWrapperNeeded wrapper_function_needed
    dsimp only
    simp [hne]
  case Static => rfl
  case Virtual => rfl
  case PureVirtual => rfl

set_option maxHeartbeats 1000000 in
/-- C3: a shim is required whenever the method kind is Static, Virtual, or
PureVirtual, whenever the bridge-entry name differs from the managed-visible
name for a method, whenever any argument or the return needs non-trivial
conversion, or whenever the effective native-visible name is invalid in the
managed identifier grammar; and in the full analysis a
Static/Virtual/PureVirtual method always carries a ShimDescription, while a
Normal method with matching names, a valid native name, and no conversions
needed never does. -/
theorem claim_C3_shim_necessity :
    (∀ (t : QualifiedName) (mk2 : MethodKind) (a b : String) (pc rcn ic : Bool),
      (mk2 = MethodKind.Static ∨ mk2 = MethodKind.Virtual ∨ mk2 = MethodKind.PureVirtual) →
      wrapper_function_needed (FnKind.Method t mk2) a b pc rcn ic = true) ∧
    (∀ (t : QualifiedName) (mk2 : MethodKind) (a b : String) (pc rcn ic : Bool),
      a ≠ b → wrapper_function_needed (FnKind.Method t mk2) a b pc rcn ic = true) ∧
    (∀ (kind : FnKind) (a b : String) (pc rcn ic : Bool),
      (pc || rcn || ic) = true → wrapper_function_needed kind a b pc rcn ic = true) ∧
    (∀ (t : QualifiedName) (a : String),
      wrapper_function_needed (FnKind.Method t MethodKind.Normal) a a false false false
        = false) ∧
    (∀ (an : FnAnalyzer) (name : ApiName) (fi : FuncToConvert)
        (an2 : FnAnalyzer) (api : ApiFunction) (t : QualifiedName) (mk2 : MethodKind),
      an.analyze_foreign_fn name fi = (an2, Except.ok (some api)) →
      api.analysis.kind = FnKind.Method t mk2 →
      (mk2 = MethodKind.Static ∨ mk2 = MethodKind.Virtual ∨ mk2 = MethodKind.PureVirtual) →
      api.analysis.cpp_wrapper.isSome = true) ∧
    (∀ (an : FnAnalyzer) (name : ApiName) (fi : FuncToConvert)
        (an2 : FnAnalyzer) (api : ApiFunction) (t : QualifiedName),
      an.analyze_foreign_fn name fi = (an2, Except.ok (some api)) →
      api.analysis.kind = FnKind.Method t MethodKind.Normal →
      api.analysis.cxxbridge_name = api.analysis.rust_name →
      (api.analysis.param_details.any (fun b => b.conversion.cpp_work_needed)) = false →
      (((an.convert_return_type fi.output name.name.nsPath
          (get_reference_parameters_and_return fi).2).conversion).map
            (fun x => x.cpp_work_needed)).getD false = false →
      validate_ident_ok_for_rust
        (api.result_name.cpp_name.getD api.analysis.rust_name) = true →
      api.analysis.cpp_wrapper = none) := by
  refine ⟨?_, ?_, ?_, ?_, ?_, ?_⟩
  · intro t mk2 a b pc rcn ic hm
    rcases hm with rfl | rfl | rfl <;> rfl
  · intro t mk2 a b pc rcn ic hne
    cases mk2 <;> simp [wrapper_function_needed, hne]
  · intro kind a b pc rcn ic hor
    rcases kind with _ | ⟨t, mk2⟩
    · simp [wrapper_function_needed, hor]
    · cases mk2 <;> simp [wrapper_function_needed, hor]
  · intro t a
    simp [wrapper_function_needed]
  · intro an name fi an2 api t mk2 h hk hm
    unfold FnAnalyzer.analyze_foreign_fn at h
    dsimp only at h
    split at h
    · exact (pair_none_ne_some _ _ _ h).elim
    next hnd =>
      split at h
      next s heqself =>
        split at h
        next hallow => exact (pair_none_ne_some _ _ _ h).elim
        next hallow =>
          split at h
          next hctor =>
            have hb := analyze_fn_rest_ok_some _ _ _ _ _ _ _ _ _ _ _ _ _ _ _ h
            rw [hb.2.2.2.2.2.1]
            exact restWrapperNeeded_constructor _ _ _ _ _ _ _ _
          next hctor =>
            have hb := analyze_fn_rest_ok_some _ _ _ _ _ _ _ _ _ _ _ _ _ _ _ h
            rw [hb.2.2.1] at hk
            injection hk with hst hkind
            rw [hb.2.2.2.2.2.1, hkind]
            exact restWrapperNeeded_svp _ _ _ _ _ _ _ _ _ hm
      next heqself =>
        have hb := analyze_fn_rest_ok_some _ _ _ _ _ _ _ _ _ _ _ _ _ _ _ h
        rw [hb.2.2.1] at hk
        exact FnKind.noConfusion hk
  · intro an name fi an2 api t h hk hcx hpc hrc hival
    unfold FnAnalyzer.analyze_foreign_fn at h
    dsimp only at h
    split at h
    · exact (pair_none_ne_some _ _ _ h).elim
    next hnd =>
      split at h
      next s heqself =>
        split at h
        next hallow => exact (pair_none_ne_some _ _ _ h).elim
        next hallow =>
          split at h
          next hctor =>
            have hb := analyze_fn_rest_ok_some _ _ _ _ _ _ _ _ _ _ _ _ _ _ _ h
            rw [hb.2.2.1] at hk
            injection hk with hst hkind
            exact MethodKind.noConfusion hkind
          next hctor =>
            have hb := analyze_fn_rest_ok_some _ _ _ _ _ _ _ _ _ _ _ _ _ _ _ h
            rw [hb.2.2.1] at hk
            injection hk with hst hkind
            rw [hkind] at hb
            have hname : api.result_name
                = ⟨restCppName an (FnKind.Method s MethodKind.Normal)
                    (methodStrippedName an name fi s) name.name.nsPath name.cpp_name,
                   ⟨name.name.nsPath, methodStrippedName an name fi s⟩⟩ :=
              (hb.2.2.2.2.2.2.2.2.1 s MethodKind.Normal rfl).2
            have hcpp : api.result_name.cpp_name
                = restCppName an (FnKind.Method s MethodKind.Normal)
                    (methodStrippedName an name fi s) name.name.nsPath name.cpp_name := by
              rw [hname]
            rw [hb.2.2.2.2.1] at hpc
            have hrust : api.analysis.rust_name = methodStrippedName an name fi s :=
              hb.2.2.2.1
            rw [hcpp, hrust] at hival
            have h6 : api.analysis.cpp_wrapper.isSome
                = restWrapperNeeded an fi name.cpp_name name.name.nsPath
                    (FnKind.Method s MethodKind.Normal)
                    (methodStrippedName an name fi s)
                    ((okParams (an.param_results name fi)).map (fun v => v.2))
                    (get_reference_parameters_and_return fi).2 :=
              hb.2.2.2.2.2.1
            by_cases hcc : bridgeNameFor an (FnKind.Method s MethodKind.Normal)
                (methodStrippedName an name fi s) name.name.nsPath
                = methodStrippedName an name fi s
            · have hf := restWrapperNeeded_normal_false an fi name.cpp_name
                name.name.nsPath s (methodStrippedName an name fi s)
                ((okParams (an.param_results name fi)).map (fun v => v.2))
                (get_reference_parameters_and_return fi).2
                hcc hpc hrc hival
              rw [hf] at h6
              cases hcw : api.analysis.cpp_wrapper with
              | none => rfl
              | some cw =>
                rw [hcw] at h6
                exact Bool.noConfusion h6
            · have hf := restWrapperNeeded_method_names_differ an fi name.cpp_name
                name.name.nsPath s MethodKind.Normal
                (methodStrippedName an name fi s)
                ((okParams (an.param_results name fi)).map (fun v => v.2))
                (get_reference_parameters_and_return fi).2 hcc
              have h8 : ∃ cw, api.analysis.cpp_wrapper = some cw ∧
                  cw.return_conversion = (restReturnAnalysis an fi name.name.nsPath
                    (FnKind.Method s MethodKind.Normal)
                    (get_reference_parameters_and_return fi).2).conversion ∧
                  api.analysis.ret_type =
                    (match (restReturnAnalysis an fi name.name.nsPath
                        (FnKind.Method s MethodKind.Normal)
                        (get_reference_parameters_and_return fi).2).conversion with
                     | some conv => some conv.unconverted_rust_type
                     | none => (restReturnAnalysis an fi name.name.nsPath
                        (FnKind.Method s MethodKind.Normal)
                        (get_reference_parameters_and_return fi).2).rt) ∧
                  api.analysis.cxxbridge_name =
                    bridgeNameFor an (FnKind.Method s MethodKind.Normal)
                        (methodStrippedName an name fi s) name.name.nsPath ++
                      (if strEndsWith (bridgeNameFor an (FnKind.Method s MethodKind.Normal)
                          (methodStrippedName an name fi s) name.name.nsPath) "_"
                       then "" else "_") ++ "autocxx_wrapper" :=
                hb.2.2.2.2.2.2.2.1 hf
              obtain ⟨cw, hcw, hconv, hrt, hcxx⟩ := h8
              have hru : api.analysis.cxxbridge_name = methodStrippedName an name fi s := by
                rw [hcx, hrust]
              rw [hru] at hcxx
              have hlen := congrArg strLen hcxx
              rw [strLen_append, strLen_append] at hlen
              have hle := strLen_le_bridgeNameFor an (FnKind.Method s MethodKind.Normal)
                (methodStrippedName an name fi s) name.name.nsPath
              have h15 : strLen "autocxx_wrapper" = 15 := rfl
              rw [h15] at hlen
              omega
      next heqself =>
        have hb := analyze_fn_rest_ok_some _ _ _ _ _ _ _ _ _ _ _ _ _ _ _ h
        rw [hb.2.2.1] at hk
        exact FnKind.noConfusion hk

theorem analyze_fn_rest_bads (an0 : FnAnalyzer) (fi : FuncToConvert)
    (cpp0 : Option String) (ns : NamespacePath) (kind : FnKind) (ectx : ErrorContext)
    (rust_name : String) (params0 : List FnArgSyn) (pds : List ArgumentAnalysis)
    (b : ConvertError) (brest : List ConvertError) (rr rc : Bool)
    (pdeps : List QualifiedName) :
    an0.analyze_fn_rest fi cpp0 ns kind ectx rust_name params0 pds (b :: brest) rr rc pdeps
      = ((an0.get_cxx_bridge_name kind.type_name_for_bridge rust_name ns).2,
         Except.error ⟨b, some ectx⟩) := rfl

/-- The Overload Registry's assignment for a prospective free function, as
`analyze_foreign_fn` computes it. -/
def functionRealName (an : FnAnalyzer) (name : ApiName) (fi : FuncToConvert) : String :=
  ((lookupTrackerList an.overload_trackers_by_mod name.name.nsPath).get_function_real_name
      (seedIdealName name.cpp_name fi.ident)).1

/-- The function/method identity context `analyze_foreign_fn` attaches to
errors, recomputed from the inputs for use in theorem statements. -/
def analysisErrorContext (an : FnAnalyzer) (name : ApiName) (fi : FuncToConvert) :
    ErrorContext :=
  match (an.resolved_self_ty name fi).2 with
  | some T =>
    if strStartsWith (methodStrippedName an name fi T) T.item then
      ErrorContext.Method T.item
        ("make_unique" ++ strDrop (methodStrippedName an name fi T) (strLen T.item))
    else ErrorContext.Method T.item (methodStrippedName an name fi T)
  | none => ErrorContext.Item (functionRealName an name fi)

set_option maxHeartbeats 1000000 in
/-- C4 (amended): for every declaration that survives the silent filters
(not destructor-named; owning type allow-listed if it is a method), a failed
parameter analysis aborts the declaration with the first such error attached
to the function/method identity context — it never silently produces no
result. -/
theorem claim_C4_param_error_propagation (an : FnAnalyzer) (name : ApiName)
    (fi : FuncToConvert) (b : ConvertError) (brest : List ConvertError)
    (hnd : strEndsWith fi.ident "_destructor" = false)
    (hbads : badParams (an.param_results name fi) = b :: brest)
    (hallow : ∀ T, (an.resolved_self_ty name fi).2 = some T →
      an.is_on_allowlist T = true) :
    (an.analyze_foreign_fn name fi).2
      = Except.error ⟨b, some (analysisErrorContext an name fi)⟩ := by
  cases hsel : (an.resolved_self_ty name fi).2 with
  | none =>
      simp [FnAnalyzer.analyze_foreign_fn, analysisErrorContext, functionRealName,
        hnd, hsel, hbads, analyze_fn_rest_bads]
  | some T =>
      have ha := hallow T hsel
      by_cases hct : strStartsWith (methodStrippedName an name fi T) T.item = true
      · simp only [methodStrippedName] at hct
        simp [FnAnalyzer.analyze_foreign_fn, analysisErrorContext, methodStrippedName,
          hnd, hsel, ha, hct, hbads, analyze_fn_rest_bads]
      · simp only [methodStrippedName] at hct
        simp [FnAnalyzer.analyze_foreign_fn, analysisErrorContext, methodStrippedName,
          hnd, hsel, ha, hct, hbads, analyze_fn_rest_bads]

/-- A placeholder result used by the witness extractors below. -/
def dummyApi : ApiFunction :=
  { analysis :=
    { cxxbridge_name := "", rust_name := "",
      rust_rename_strategy := RustRenameStrategy.None, params := [],
      kind := FnKind.Function, ret_type := none, param_details := [],
      requires_caution := false, is_public := false, cpp_wrapper := none,
      deps := [] },
    result_name := { cpp_name := none, name := ⟨[], ""⟩ } }

/-- Extract the produced result of a successful run (used by witnesses). -/
def apiOf (r : FnAnalyzer × Except ConvertErrorWithContext (Option ApiFunction)) :
    ApiFunction :=
  match r.2 with
  | Except.ok (some a) => a
  | _ => dummyApi

/-- `native_add(a: int, b: int) -> int`, a free function on POD types. -/
def addFn : FuncToConvert :=
  { ident := "native_add",
    inputs := [⟨Pat.ident "a", Ty.path intQN⟩, ⟨Pat.ident "b", Ty.path intQN⟩],
    output := some (Ty.path intQN),
    attrs := [], virtual_this_type := none, self_ty := none, is_public := true }

/-- The `ApiName` of `native_add`. -/
def addName : ApiName := ⟨none, ⟨[], "native_add"⟩⟩

/-- `Widget::Widget()`, as bindgen presents a constructor. -/
def ctorFn : FuncToConvert :=
  { ident := "Widget_Widget",
    inputs := [⟨Pat.ident "this", Ty.ptr true (Ty.path widgetQN)⟩],
    output := none,
    attrs := [], virtual_this_type := none, self_ty := none, is_public := true }

/-- The `ApiName` of `Widget_Widget`. -/
def ctorName : ApiName := ⟨some "Widget", ⟨[], "Widget_Widget"⟩⟩

/-- The constructor's extracted analysis result. -/
def ctorApi : ApiFunction := apiOf (baseState.analyze_foreign_fn ctorName ctorFn)

/-- `Widget::resize(int)`, a plain method needing no conversions. -/
def resizeFn : FuncToConvert :=
  { ident := "Widget_resize",
    inputs := [⟨Pat.ident "this", Ty.ptr true (Ty.path widgetQN)⟩,
               ⟨Pat.ident "w", Ty.path intQN⟩],
    output := none,
    attrs := [], virtual_this_type := none, self_ty := none, is_public := true }

/-- The `ApiName` of `Widget_resize`. -/
def resizeName : ApiName := ⟨some "resize", ⟨[], "Widget_resize"⟩⟩

/-- The resize method's extracted analysis result. -/
def resizeApi : ApiFunction := apiOf (baseState.analyze_foreign_fn resizeName resizeFn)

/-- A static method of `Widget` (owning-type marker, no receiver). -/
def staticFn : FuncToConvert :=
  { ident := "Widget_count",
    inputs := [],
    output := some (Ty.path intQN),
    attrs := [], virtual_this_type := none, self_ty := some widgetQN, is_public := true }

/-- The `ApiName` of `Widget_count`. -/
def staticName : ApiName := ⟨some "count", ⟨[], "Widget_count"⟩⟩

/-- The static method's extracted analysis result. -/
def staticApi : ApiFunction := apiOf (baseState.analyze_foreign_fn staticName staticFn)

/-- The `ApiName` of `Widget_get_x`. -/
def refMethodName : ApiName := ⟨some "get_x", ⟨[], "Widget_get_x"⟩⟩

/-- The reference-returning method's extracted analysis result. -/
def refMethodApi : ApiFunction :=
  apiOf (baseState.analyze_foreign_fn refMethodName refMethodFn)

/-- `get_ref() -> &int`: a reference return with zero reference parameters. -/
def refRetFn : FuncToConvert :=
  { ident := "get_ref", inputs := [], output := some (Ty.reference (Ty.path intQN)),
    attrs := [], virtual_this_type := none, self_ty := none, is_public := true }

/-- A method of the non-allow-listed `Gadget` whose receiver parameter fails
analysis (`this` of non-pointer shape). -/
def c4badFn : FuncToConvert :=
  { ident := "Gadget_bad", inputs := [⟨Pat.ident "this", Ty.other⟩], output := none,
    attrs := [], virtual_this_type := none, self_ty := some ⟨[], "Gadget"⟩,
    is_public := true }

/-- The `ApiName` of `Gadget_bad`. -/
def c4Name : ApiName := ⟨none, ⟨[], "Gadget_bad"⟩⟩

/-- A method of the allow-listed `Widget` with an invalid parameter
identifier. -/
def c4allowFn : FuncToConvert :=
  { ident := "Widget_bad",
    inputs := [⟨Pat.ident "this", Ty.ptr true (Ty.path widgetQN)⟩,
               ⟨Pat.ident "enum", Ty.path intQN⟩],
    output := none,
    attrs := [], virtual_this_type := none, self_ty := none, is_public := true }

/-- The `ApiName` of `Widget_bad`. -/
def c4allowName : ApiName := ⟨none, ⟨[], "Widget_bad"⟩⟩

/-- The claim C4 states that a declaration with a failed parameter analysis
never silently produces no result; this run refutes it: `Gadget_bad` has a
failed parameter analysis, yet the analysis returns `Ok(None)` because the
owning type is not allow-listed (the allow-list drop is checked first). -/
theorem claim_C4_counterexample :
    baseState.analyze_foreign_fn c4Name c4badFn = (baseState, Except.ok none) ∧
    badParams (baseState.param_results c4Name c4badFn)
      = [ConvertError.UnexpectedThisType [] "Gadget_bad"] := ⟨rfl, rfl⟩

/-- Witness for C4 (amended): a surviving declaration with a failed
parameter surfaces the error with the method identity attached. -/
theorem claim_C4_witness :
    (baseState.analyze_foreign_fn c4allowName c4allowFn).2
      = Except.error ⟨ConvertError.InvalidIdent "enum",
          some (ErrorContext.Method "Widget" "bad")⟩ :=
  (claim_C4_param_error_propagation baseState c4allowName c4allowFn
      (ConvertError.InvalidIdent "enum") [] (by decide) (by rfl)
      (fun T hT => by
        have h2 : some widgetQN = some T := hT
        injection h2 with h3
        rw [← h3]
        decide)).trans (by rfl)

/-- Witness for C1: the concrete constructor `Widget_Widget`. -/
theorem claim_C1_witness :
    ctorApi.analysis.kind = FnKind.Method widgetQN MethodKind.Constructor ∧
    ctorApi.analysis.rust_name
      = "make_unique" ++ strDrop (methodStrippedName baseState ctorName ctorFn widgetQN)
          (strLen widgetQN.item) ∧
    ctorApi.analysis.param_details
      = ((okParams (baseState.param_results ctorName ctorFn)).map (fun v => v.2)).drop 1 ∧
    ctorApi.analysis.ret_type = some (Ty.path widgetQN) ∧
    (∃ cw, ctorApi.analysis.cpp_wrapper = some cw ∧
      cw.return_conversion
        = some (TypeConversionPolicy.new_to_unique_ptr (Ty.path widgetQN))) :=
  claim_C1_constructor_detection baseState ctorName ctorFn
    (baseState.analyze_foreign_fn ctorName ctorFn).1 ctorApi widgetQN rfl
    ⟨MethodKind.Constructor, rfl⟩ (by decide)

/-- Witness for C2: the receiver-only reference return of `Widget_get_x`
passes the gate with exactly one reference parameter, and a concrete
reference return with zero reference parameters fails with
`NotOneInputReference`. -/
theorem claim_C2_witness :
    (refMethodApi.analysis.param_details.filter (fun pd => pd.was_reference)).length
        = 1 ∧
    baseState.analyze_fn_rest refRetFn none [] FnKind.Function
        (ErrorContext.Item "get_ref") "get_ref" [] [] [] false false []
      = ((baseState.get_cxx_bridge_name FnKind.Function.type_name_for_bridge
            "get_ref" []).2,
         Except.error ⟨ConvertError.NotOneInputReference "get_ref",
           some (ErrorContext.Item "get_ref")⟩) :=
  ⟨claim_C2_reference_return_invariant.1 baseState refMethodName refMethodFn
      (baseState.analyze_foreign_fn refMethodName refMethodFn).1 refMethodApi rfl
      (fun t hc => by
        have h2 : FnKind.Method widgetQN MethodKind.Normal
            = FnKind.Method t MethodKind.Constructor := hc
        injection h2 with h3 h4
        exact MethodKind.noConfusion h4)
      rfl,
   claim_C2_reference_return_invariant.2 baseState refRetFn none []
      FnKind.Function (ErrorContext.Item "get_ref") "get_ref" [] [] false false []
      rfl rfl (by decide)⟩

/-- Witness for C3: the shim decision at concrete inputs — a static method
always gets a shim, a plain method with matching names and no conversions
does not. -/
theorem claim_C3_witness :
    wrapper_function_needed (FnKind.Method widgetQN MethodKind.Static)
        "a" "b" false false false = true ∧
    wrapper_function_needed (FnKind.Method widgetQN MethodKind.Normal)
        "n" "n" false false false = false ∧
    staticApi.analysis.cpp_wrapper.isSome = true ∧
    resizeApi.analysis.cpp_wrapper = none :=
  ⟨claim_C3_shim_necessity.1 widgetQN MethodKind.Static "a" "b" false false false
      (Or.inl rfl),
   claim_C3_shim_necessity.2.2.2.1 widgetQN "n",
   claim_C3_shim_necessity.2.2.2.2.1 baseState staticName staticFn
      (baseState.analyze_foreign_fn staticName staticFn).1 staticApi widgetQN
      MethodKind.Static rfl rfl (Or.inl rfl),
   claim_C3_shim_necessity.2.2.2.2.2 baseState resizeName resizeFn
      (baseState.analyze_foreign_fn resizeName resizeFn).1 resizeApi widgetQN
      rfl rfl rfl rfl rfl rfl⟩

/-- The free function's extracted analysis result. -/
def addApi : ApiFunction := apiOf (baseState.analyze_foreign_fn addName addFn)

/-- Witness for C6: a method keeps `None`; a free function whose bridge name
equals its managed name keeps `None`. -/
theorem claim_C6_witness :
    resizeApi.analysis.rust_rename_strategy = RustRenameStrategy.None ∧
    addApi.analysis.rust_rename_strategy = RustRenameStrategy.None :=
  ⟨(claim_C6_rename_strategy baseState resizeName resizeFn
      (baseState.analyze_foreign_fn resizeName resizeFn).1 resizeApi rfl).1
      widgetQN MethodKind.Normal rfl,
   ((claim_C6_rename_strategy baseState addName addFn
      (baseState.analyze_foreign_fn addName addFn).1 addApi rfl).2 rfl).1 rfl⟩
